import Mathlib

/-!
Halley resource locator.

A shallow embedding of `ResourceLocator` (engine/core/src/resources/resource_locator.cpp)
and theorems about its provider arbitration, typed fetches, purge, enumeration, metadata and
registration entry points; and of `binarySearch` of the font tool
(tools/src/make_font/make_font_tool.cpp).

Conventions of the embedding:

* `std::map<String, IResourceLocatorProvider*> locators` is an association list with unique
  keys; only `find` and `operator[]` are used by the source, so iteration order is irrelevant.
* A raw provider pointer is a `ProviderRef`: the slot of `locatorList` that owns the object
  (its identity) together with the object it points to. Providers are immutable values here
  (fixed priority, fixed database, fixed fetch function), hence reading through the pointer is
  reading `target`.
* Calls made on collaborators (provider fetch, provider purge, `delete`) are recorded, in
  program order, in a list of `Effect`s returned next to the result.
* A thrown `Exception` is the `error` case of `Except`.
* The member `system` and the constructors of the provider classes are parameters of the
  methods that use them (`addFileSystem`, `addPack`).
-/

namespace Halley

/-! ## Collaborator types -/

/-- Modelled from the spec: the enumeration `AssetType` is declared in a header that is not
part of the sources at hand; the spec describes it as a closed enumeration of resource kinds
(texture, audio, font, config, binary blob). The resolver never inspects its value. -/
inductive AssetType
  | texture
  | audio
  | font
  | config
  | binaryBlob
  deriving DecidableEq, Repr

/-- Modelled from the spec: `Metadata`, an open mapping of string keys to scalar values
attached to one (name, type) pair. -/
structure Metadata where
  entries : List (String × String)
  deriving DecidableEq, Repr

/-- Modelled from the spec: `AssetDatabase`, declared outside the sources at hand: an index
mapping (asset name, asset type) to a metadata record, enumerable by type. -/
structure AssetDatabase where
  records : List ((String × AssetType) × Metadata)
  deriving DecidableEq, Repr

/-- Modelled from the spec: `AssetDatabase::getAssets`, the names of all assets the database
lists, over all types. -/
def AssetDatabase.getAssets (db : AssetDatabase) : List String :=
  db.records.map (fun r => r.1.1)

/-- Modelled from the spec: `AssetDatabase::enumerate`, the listing of the database for one
type: the names of the records stored under that type, in database order. -/
def AssetDatabase.enumerate (db : AssetDatabase) (type : AssetType) : List String :=
  (db.records.filter (fun r => r.1.2 = type)).map (fun r => r.1.1)

/-- Modelled from the spec: static resource data, a complete byte buffer. -/
structure ResourceDataStatic where
  bytes : List Nat
  deriving DecidableEq, Repr

/-- Modelled from the spec: stream resource data, a byte sequence with its declared total
size, read incrementally. -/
structure ResourceDataStream where
  size : Nat
  bytes : List Nat
  deriving DecidableEq, Repr

/-- Modelled from the spec: `ResourceData` with its two variants. -/
inductive ResourceData
  | static (d : ResourceDataStatic)
  | stream (d : ResourceDataStream)
  deriving DecidableEq, Repr

/-- The cast `dynamic_cast<ResourceDataStatic*>`: succeeds exactly on the static variant. -/
def ResourceData.asStatic : ResourceData → Option ResourceDataStatic
  | .static d => some d
  | .stream _ => none

/-- The cast `dynamic_cast<ResourceDataStream*>`: succeeds exactly on the stream variant. -/
def ResourceData.asStream : ResourceData → Option ResourceDataStream
  | .static _ => none
  | .stream d => some d

/-- Modelled from the spec: the provider capability `IResourceLocatorProvider` (declared in a
header outside the sources at hand): a fetch that may produce no data, a read-only database and
an integer priority. Its `purge` has no result and is recorded as an effect. -/
structure IResourceLocatorProvider where
  getData : String → AssetType → Bool → Option ResourceData
  getAssetDatabase : AssetDatabase
  getPriority : Int

/-- The error codes of `HalleyExceptions`; the resolver only raises `Resources`. -/
inductive HalleyExceptions
  | Resources
  deriving DecidableEq, Repr

/-- The exception `Exception(message, code)`. -/
structure Exception where
  msg : String
  code : HalleyExceptions
  deriving DecidableEq, Repr

/-- Modelled from the spec: the chain `getDatabase(type).get(asset).meta` of `AssetDatabase`,
whose code is outside the sources at hand: the metadata record stored under (name, type).
For a database that holds no such record the spec classes the failure as the not-found error
("for metadata, the winning provider lost it"), so the lookup raises that error. -/
def AssetDatabase.getMeta (db : AssetDatabase) (type : AssetType) (asset : String) :
    Except Exception Metadata :=
  match db.records.lookup (asset, type) with
  | some record => .ok record
  | none => .error { msg := "Unable to locate resource: " ++ asset, code := .Resources }

/-- Modelled from the spec: the data reader the system yields for a path. -/
structure ResourceDataReader where
  bytes : List Nat
  deriving DecidableEq, Repr

/-- Modelled from the spec: the part of `SystemAPI` the resolver uses, the raw byte source
that, given a path, yields either no source or a reader. -/
structure SystemAPI where
  getDataReader : String → Option ResourceDataReader

/-- Modelled from the spec: the constructors of the two provider classes, which are defined
outside the sources at hand; what provider they build is left open. -/
structure ProviderClasses where
  FileSystemResourceLocator : SystemAPI → String → IResourceLocatorProvider
  PackResourceLocator :
    ResourceDataReader → String → String → Bool → IResourceLocatorProvider

/-- Calls on collaborators, recorded in program order. The provider is named by its slot in
`locatorList`. -/
inductive Effect
  | getData (slot : Nat) (asset : String) (type : AssetType) (stream : Bool)
  | purge (slot : Nat)
  | deleteData (rawPtr : ResourceData)
  | logWarning (msg : String)
  deriving DecidableEq, Repr

/-! ## Resolver state -/

/-- A non-owning `IResourceLocatorProvider*`: the slot of `locatorList` owning the object and
the object pointed to. -/
structure ProviderRef where
  slot : Nat
  target : IResourceLocatorProvider

/-- The lookup `locators.find(asset)`: `none` stands for `locators.end()`. -/
def find (locators : List (String × ProviderRef)) (asset : String) : Option ProviderRef :=
  locators.lookup asset

/-- The assignment `locators[asset] = ptr`: inserts the key or overwrites its value. -/
def assign (locators : List (String × ProviderRef)) (asset : String) (ptr : ProviderRef) :
    List (String × ProviderRef) :=
  (asset, ptr) :: locators.filter (fun e => e.1 != asset)

/-- The members of `ResourceLocator`: the name index and the owning, ordered provider list. -/
structure ResourceLocator where
  locators : List (String × ProviderRef)
  locatorList : List IResourceLocatorProvider

namespace ResourceLocator

/-- The constructor `ResourceLocator(system)`: both containers start empty. -/
def new : ResourceLocator :=
  { locators := [], locatorList := [] }

/-- One iteration of the loop of `add`: the body run for one asset of the new provider's
database, where `ptr` is `locator.get()`. -/
def addAsset (ptr : ProviderRef) (locators : List (String × ProviderRef)) (asset : String) :
    List (String × ProviderRef) :=
  match find locators asset with
  | none => assign locators asset ptr
  | some result =>
    if result.target.getPriority < ptr.target.getPriority then assign locators asset ptr
    else locators

/-- The method `ResourceLocator::add`. -/
def add (self : ResourceLocator) (locator : IResourceLocatorProvider) : ResourceLocator :=
  let ptr : ProviderRef := { slot := self.locatorList.length, target := locator }
  let db := locator.getAssetDatabase
  { locators := db.getAssets.foldl (addAsset ptr) self.locators
    locatorList := self.locatorList ++ [locator] }

/-- A finite sequence of `add` calls on an initially empty resolver. -/
def addAll (providers : List IResourceLocatorProvider) : ResourceLocator :=
  providers.foldl add new

/-- The method `ResourceLocator::getResource`. -/
def getResource (self : ResourceLocator) (asset : String) (type : AssetType) (stream : Bool) :
    Except Exception ResourceData × List Effect :=
  match find self.locators asset with
  | some result =>
    match result.target.getData asset type stream with
    | some data => (.ok data, [Effect.getData result.slot asset type stream])
    | none =>
      (.error { msg := "Unable to load resource: " ++ asset, code := .Resources },
        [Effect.getData result.slot asset type stream])
  | none =>
    (.error { msg := "Unable to locate resource: " ++ asset, code := .Resources }, [])

/-- The method `ResourceLocator::getStatic`. -/
def getStatic (self : ResourceLocator) (asset : String) (type : AssetType) :
    Except Exception ResourceDataStatic × List Effect :=
  match self.getResource asset type false with
  | (.error e, fx) => (.error e, fx)
  | (.ok rawPtr, fx) =>
    match rawPtr.asStatic with
    | none =>
      (.error
          { msg := "Resource " ++ asset ++ " obtained, but is not static data."
            code := .Resources },
        fx ++ [Effect.deleteData rawPtr])
    | some ptr => (.ok ptr, fx)

/-- The method `ResourceLocator::getStream`. -/
def getStream (self : ResourceLocator) (asset : String) (type : AssetType) :
    Except Exception ResourceDataStream × List Effect :=
  match self.getResource asset type true with
  | (.error e, fx) => (.error e, fx)
  | (.ok rawPtr, fx) =>
    match rawPtr.asStream with
    | none =>
      (.error
          { msg := "Resource " ++ asset ++ " obtained, but is not stream data."
            code := .Resources },
        fx ++ [Effect.deleteData rawPtr])
    | some ptr => (.ok ptr, fx)

/-- The method `ResourceLocator::purge`: the state after the call and the provider purges it
made. -/
def purge (self : ResourceLocator) (asset : String) (_type : AssetType) :
    ResourceLocator × List Effect :=
  match find self.locators asset with
  | some result => (self, [Effect.purge result.slot])
  | none => (self, self.locatorList.enum.map (fun l => Effect.purge l.1))

/-- The method `ResourceLocator::exists` (the name `exists` is reserved in Lean). -/
def exists_ (self : ResourceLocator) (asset : String) : Bool :=
  (find self.locators asset).isSome

/-- The method `ResourceLocator::enumerate`: every listing of every provider, pushed back one
name at a time in loop order. -/
def enumerate (self : ResourceLocator) (type : AssetType) : List String :=
  self.locatorList.foldl
    (fun result l => (l.getAssetDatabase.enumerate type).foldl (fun acc r => acc ++ [r]) result)
    []

/-- The method `ResourceLocator::addFileSystem`. -/
def addFileSystem (classes : ProviderClasses) (system : SystemAPI) (self : ResourceLocator)
    (path : String) : ResourceLocator :=
  self.add (classes.FileSystemResourceLocator system path)

/-- The method `ResourceLocator::addPack`: whether it returned or threw, the state after the
call, and the effects. -/
def addPack (classes : ProviderClasses) (system : SystemAPI) (self : ResourceLocator)
    (path : String) (encryptionKey : String) (preLoad : Bool) (allowFailure : Bool) :
    Except Exception Unit × ResourceLocator × List Effect :=
  match system.getDataReader path with
  | some dataReader =>
    (.ok (), self.add (classes.PackResourceLocator dataReader path encryptionKey preLoad), [])
  | none =>
    if allowFailure then
      (.ok (), self, [Effect.logWarning ("Resource pack not found: \"" ++ path ++ "\"")])
    else
      (.error { msg := "Unable to load resource pack \"" ++ path ++ "\"", code := .Resources },
        self, [])

/-- The method `ResourceLocator::getMetaData`. -/
def getMetaData (self : ResourceLocator) (asset : String) (type : AssetType) :
    Except Exception Metadata :=
  match find self.locators asset with
  | some result => result.target.getAssetDatabase.getMeta type asset
  | none => .error { msg := "Unable to locate resource: " ++ asset, code := .Resources }

/-- A call of one public method of the resolver. -/
inductive Request
  | add (locator : IResourceLocatorProvider)
  | addFileSystem (path : String)
  | addPack (path : String) (encryptionKey : String) (preLoad : Bool) (allowFailure : Bool)
  | getResource (asset : String) (type : AssetType) (stream : Bool)
  | getStatic (asset : String) (type : AssetType)
  | getStream (asset : String) (type : AssetType)
  | purge (asset : String) (type : AssetType)
  | enumerate (type : AssetType)
  | getMetaData (asset : String) (type : AssetType)
  | exists_ (asset : String)

/-- The resolver state after a call and the effects of the call. The methods `getResource`,
`getStatic`, `getStream`, `enumerate`, `getMetaData` and `exists` assign to no member, so the
state after them is the state before. -/
def perform (classes : ProviderClasses) (system : SystemAPI) (self : ResourceLocator) :
    Request → ResourceLocator × List Effect
  | .add locator => (self.add locator, [])
  | .addFileSystem path => (self.addFileSystem classes system path, [])
  | .addPack path encryptionKey preLoad allowFailure =>
    (self.addPack classes system path encryptionKey preLoad allowFailure).2
  | .getResource asset type stream => (self, (self.getResource asset type stream).2)
  | .getStatic asset type => (self, (self.getStatic asset type).2)
  | .getStream asset type => (self, (self.getStream asset type).2)
  | .purge asset type => self.purge asset type
  | .enumerate _ => (self, [])
  | .getMetaData _ _ => (self, [])
  | .exists_ _ => (self, [])

/-- The states reachable from the empty resolver by calls of its public methods. -/
inductive Reachable (classes : ProviderClasses) (system : SystemAPI) : ResourceLocator → Prop
  | new : Reachable classes system new
  | step (self : ResourceLocator) (request : Request) :
    Reachable classes system self →
      Reachable classes system (perform classes system self request).1

/-- The outcome of the test of `add` for one name: the winner after a provider `ptr` that
lists the name has been added, given the winner `current` before. Used to state what `add`
does to the index entry of a name. -/
def arbitrate (ptr : ProviderRef) (current : Option ProviderRef) : Option ProviderRef :=
  match current with
  | none => some ptr
  | some result =>
    if result.target.getPriority < ptr.target.getPriority then some ptr else some result

end ResourceLocator

/-! ## Font tool: `binarySearch` (tools/src/make_font/make_font_tool.cpp)

The C++ type `int` is the 32-bit signed integer. An arithmetic result outside its range is a
signed overflow, which the language leaves undefined: the embedding returns `none` there. -/

/-- The least value of `int`. -/
def INT_MIN : Int := -2147483648

/-- The greatest value of `int`. -/
def INT_MAX : Int := 2147483647

/-- The `while` loop of `binarySearch`, from the loop state `v0`, `v1`, `lastGood`,
`bestResult`; `probes` collects the arguments `f` has been evaluated at, in order. The
division `/ 2` of `int` truncates toward zero. The result is the loop state at exit, or `none`
when `v0 + v1`, `v + 1` or `v - 1` overflows. -/
def binarySearchLoop {R : Type} (f : Int → Option R) (v0 v1 lastGood : Int)
    (bestResult : Option R) (probes : List Int) : Option (Int × Option R × List Int) :=
  if v0 ≤ v1 then
    if INT_MIN ≤ v0 + v1 ∧ v0 + v1 ≤ INT_MAX then
      match f ((v0 + v1).tdiv 2) with
      | some result =>
        if (v0 + v1).tdiv 2 + 1 ≤ INT_MAX then
          binarySearchLoop f ((v0 + v1).tdiv 2 + 1) v1 ((v0 + v1).tdiv 2) (some result)
            (probes ++ [(v0 + v1).tdiv 2])
        else none
      | none =>
        if INT_MIN ≤ (v0 + v1).tdiv 2 - 1 then
          binarySearchLoop f v0 ((v0 + v1).tdiv 2 - 1) lastGood bestResult
            (probes ++ [(v0 + v1).tdiv 2])
        else none
    else none
  else some (lastGood, bestResult, probes)
termination_by (v1 - v0 + 1).toNat
decreasing_by
  all_goals simp_wf
  all_goals
    have hb : v0 ≤ (v0 + v1).tdiv 2 ∧ (v0 + v1).tdiv 2 ≤ v1 := by
      by_cases hs : 0 ≤ v0 + v1
      · rw [Int.tdiv_eq_ediv hs (by decide)]
        omega
      · have hn : (v0 + v1).tdiv 2 = -((-(v0 + v1)) / 2) := by
          rw [← Int.tdiv_eq_ediv (by omega) (by decide), Int.neg_tdiv, neg_neg]
        rw [hn]
        omega
    omega

/-- What a run of `binarySearch` produces: the value returned, the final `lastGood`, the
arguments `f` was evaluated at, and the number printed in the line "Packing with N pt.", if
that line is printed. -/
structure SearchRun (R : Type) where
  bestResult : Option R
  lastGood : Int
  probes : List Int
  printed : Option Int

/-- The function `binarySearch` of the font tool; `none` when the run overflows. -/
def binarySearch {R : Type} (f : Int → Option R) (minBound maxBound : Int) :
    Option (SearchRun R) :=
  match binarySearchLoop f minBound maxBound minBound none [] with
  | none => none
  | some (lastGood, bestResult, probes) =>
    some
      { bestResult := bestResult
        lastGood := lastGood
        probes := probes
        printed := if lastGood > 0 then some lastGood else none }

/-- A packing attempt that fits up to 37 pt. -/
def sampleFits (fontSize : Int) : Option Int :=
  if fontSize ≤ 37 then some (fontSize * 10) else none

/-! ## Sample providers -/

/-- A provider of the given priority that lists `names` under the texture type and fetches
`data` for each of them. -/
def sampleProvider (priority : Int) (names : List String) (data : Option ResourceData) :
    IResourceLocatorProvider :=
  { getData := fun asset _ _ => if asset ∈ names then data else none
    getAssetDatabase :=
      { records := names.map (fun n => ((n, AssetType.texture), { entries := [] })) }
    getPriority := priority }

/-- A priority 1 provider listing "a", with static data. -/
def sampleP1 : IResourceLocatorProvider :=
  sampleProvider 1 ["a"] (some (.static { bytes := [1] }))

/-- A priority 2 provider listing "a", with static data. -/
def sampleP2 : IResourceLocatorProvider :=
  sampleProvider 2 ["a"] (some (.static { bytes := [2] }))

/-- A second priority 2 provider listing "a" and "b", with stream data. -/
def sampleP3 : IResourceLocatorProvider :=
  sampleProvider 2 ["a", "b"] (some (.stream { size := 1, bytes := [3] }))

/-- A priority 5 provider listing "c" that cannot deliver its bytes. -/
def sampleP4 : IResourceLocatorProvider :=
  sampleProvider 5 ["c"] none

/-- A provider of the given priority that lists one name under one type, with a metadata
record naming its source, and fetches `data` for that name and type. -/
def typedProvider (priority : Int) (name : String) (type : AssetType) (source : String)
    (data : Option ResourceData) : IResourceLocatorProvider :=
  { getData := fun asset t _ => if asset = name ∧ t = type then data else none
    getAssetDatabase := { records := [((name, type), { entries := [("source", source)] })] }
    getPriority := priority }

/-- A directory provider of priority 0 listing the texture "sprite.png". -/
def sampleDir : IResourceLocatorProvider :=
  typedProvider 0 "sprite.png" AssetType.texture "directory" (some (.static { bytes := [1] }))

/-- A pack provider of priority 10 listing the texture "sprite.png". -/
def samplePack : IResourceLocatorProvider :=
  typedProvider 10 "sprite.png" AssetType.texture "pack" (some (.static { bytes := [2] }))

/-- A priority 1 provider listing "x" under the audio type. -/
def sampleLow : IResourceLocatorProvider :=
  typedProvider 1 "x" AssetType.audio "low" (some (.static { bytes := [4] }))

/-- A priority 2 provider listing "x" under the texture type only. -/
def sampleHigh : IResourceLocatorProvider :=
  typedProvider 2 "x" AssetType.texture "high" (some (.static { bytes := [5] }))

/-- A system that has a data reader for "assets.dat" only. -/
def sampleSystem : SystemAPI :=
  { getDataReader := fun path => if path = "assets.dat" then some { bytes := [7] } else none }

/-- Provider classes building a priority 0 directory provider and a priority 10 pack
provider that list their own path. -/
def sampleClasses : ProviderClasses :=
  { FileSystemResourceLocator := fun _ path => sampleProvider 0 [path] none
    PackResourceLocator := fun reader path _ _ =>
      sampleProvider 10 [path] (some (.static { bytes := reader.bytes })) }

/-- The state after registering the directory "dir". -/
def sampleSession1 : ResourceLocator :=
  (ResourceLocator.perform sampleClasses sampleSystem ResourceLocator.new
    (.addFileSystem "dir")).1

/-- The state after then registering the pack "assets.dat". -/
def sampleSession2 : ResourceLocator :=
  (ResourceLocator.perform sampleClasses sampleSystem sampleSession1
    (.addPack "assets.dat" "key" false false)).1

/-- The state after then purging "dir". -/
def sampleSession3 : ResourceLocator :=
  (ResourceLocator.perform sampleClasses sampleSystem sampleSession2
    (.purge "dir" AssetType.texture)).1

/-! ## Error kinds named by the specification -/

/-- The not-found error of `getResource`. -/
def assetNotFound (asset : String) : Exception :=
  { msg := "Unable to locate resource: " ++ asset, code := .Resources }

/-- The load-failed error of `getResource`. -/
def assetLoadFailed (asset : String) : Exception :=
  { msg := "Unable to load resource: " ++ asset, code := .Resources }

/-- The variant-mismatch error of `getStatic`. -/
def notStaticData (asset : String) : Exception :=
  { msg := "Resource " ++ asset ++ " obtained, but is not static data.", code := .Resources }

/-- The variant-mismatch error of `getStream`. -/
def notStreamData (asset : String) : Exception :=
  { msg := "Resource " ++ asset ++ " obtained, but is not stream data.", code := .Resources }

/-- The registration error of `addPack`. -/
def providerRegistrationFailed (path : String) : Exception :=
  { msg := "Unable to load resource pack \"" ++ path ++ "\"", code := .Resources }

/-- What `getResource` makes of the winning provider's fetch: the data when present, the
load-failed error otherwise. -/
def fetched (asset : String) : Option ResourceData → Except Exception ResourceData
  | some data => .ok data
  | none => .error (assetLoadFailed asset)

theorem msg_load_ne_locate (a b : String) :
    "Unable to load resource: " ++ a ≠ "Unable to locate resource: " ++ b := by
  intro h
  have h2 := congrArg String.data h
  simp [String.data_append] at h2

theorem msg_resource_ne_locate (a b : String) (s : String) :
    "Resource " ++ a ++ s ≠ "Unable to locate resource: " ++ b := by
  intro h
  have h2 := congrArg String.data h
  simp [String.data_append] at h2

theorem msg_resource_ne_load (a b : String) (s : String) :
    "Resource " ++ a ++ s ≠ "Unable to load resource: " ++ b := by
  intro h
  have h2 := congrArg String.data h
  simp [String.data_append] at h2

theorem assetLoadFailed_ne_assetNotFound (a b : String) :
    assetLoadFailed a ≠ assetNotFound b := by
  intro h
  exact msg_load_ne_locate a b (congrArg Exception.msg h)

theorem notStaticData_ne_assetNotFound (a b : String) : notStaticData a ≠ assetNotFound b := by
  intro h
  exact msg_resource_ne_locate a b _ (congrArg Exception.msg h)

theorem notStaticData_ne_assetLoadFailed (a b : String) :
    notStaticData a ≠ assetLoadFailed b := by
  intro h
  exact msg_resource_ne_load a b _ (congrArg Exception.msg h)

theorem notStreamData_ne_assetNotFound (a b : String) : notStreamData a ≠ assetNotFound b := by
  intro h
  exact msg_resource_ne_locate a b _ (congrArg Exception.msg h)

theorem notStreamData_ne_assetLoadFailed (a b : String) :
    notStreamData a ≠ assetLoadFailed b := by
  intro h
  exact msg_resource_ne_load a b _ (congrArg Exception.msg h)

/-! ## The index as a finite map -/

theorem find_assign_self (m : List (String × ProviderRef)) (a : String) (p : ProviderRef) :
    find (assign m a p) a = some p := by
  simp [find, assign, List.lookup]

theorem find_filter_ne (m : List (String × ProviderRef)) (a n : String) (h : n ≠ a) :
    find (m.filter (fun e => e.1 != a)) n = find m n := by
  induction m with
  | nil => rfl
  | cons e m ih =>
    obtain ⟨k, v⟩ := e
    by_cases hk : k = a
    · subst hk
      have hn : (n == k) = false := by simpa using h
      simp [find, List.filter, List.lookup, hn] at ih ⊢
      exact ih
    · have hk2 : (k != a) = true := by simpa using hk
      by_cases hnk : n = k
      · subst hnk
        simp [find, List.filter, List.lookup, hk2]
      · have hn : (n == k) = false := by simpa using hnk
        simp [find, List.filter, List.lookup, hk2, hn] at ih ⊢
        exact ih

theorem find_assign_ne (m : List (String × ProviderRef)) (a n : String) (p : ProviderRef)
    (h : n ≠ a) : find (assign m a p) n = find m n := by
  have hn : (n == a) = false := by simpa using h
  have := find_filter_ne m a n h
  simp only [find, assign, List.lookup, hn] at this ⊢
  exact this

namespace ResourceLocator

theorem find_addAsset_self (ptr : ProviderRef) (m : List (String × ProviderRef)) (a : String) :
    find (addAsset ptr m a) a = arbitrate ptr (find m a) := by
  unfold addAsset arbitrate
  cases hf : find m a with
  | none => simp [find_assign_self]
  | some w =>
    by_cases hp : w.target.getPriority < ptr.target.getPriority
    · simp [hp, find_assign_self]
    · simp [hp, hf]

theorem find_addAsset_ne (ptr : ProviderRef) (m : List (String × ProviderRef)) (a n : String)
    (h : n ≠ a) : find (addAsset ptr m a) n = find m n := by
  unfold addAsset
  cases hf : find m a with
  | none => simp [find_assign_ne _ _ _ _ h]
  | some w =>
    by_cases hp : w.target.getPriority < ptr.target.getPriority
    · simp [hp, find_assign_ne _ _ _ _ h]
    · simp [hp]

theorem arbitrate_idem (ptr : ProviderRef) (c : Option ProviderRef) :
    arbitrate ptr (arbitrate ptr c) = arbitrate ptr c := by
  unfold arbitrate
  cases c with
  | none => simp
  | some w =>
    by_cases hp : w.target.getPriority < ptr.target.getPriority
    · simp [hp]
    · simp [hp]

theorem find_foldl_addAsset (ptr : ProviderRef) (assets : List String) :
    ∀ (m : List (String × ProviderRef)) (n : String),
      find (assets.foldl (addAsset ptr) m) n =
        if n ∈ assets then arbitrate ptr (find m n) else find m n := by
  induction assets with
  | nil => intro m n; simp
  | cons a assets ih =>
    intro m n
    rw [List.foldl_cons, ih]
    by_cases hna : n = a
    · subst hna
      by_cases hmem : n ∈ assets
      · simp [hmem, find_addAsset_self, arbitrate_idem]
      · simp [hmem, find_addAsset_self]
    · simp [hna, find_addAsset_ne _ _ _ _ hna]

/-- What `add` does to the index entry of one name. -/
theorem find_add (self : ResourceLocator) (locator : IResourceLocatorProvider) (n : String) :
    find (self.add locator).locators n =
      if n ∈ locator.getAssetDatabase.getAssets then
        arbitrate { slot := self.locatorList.length, target := locator } (find self.locators n)
      else find self.locators n := by
  simp [add, find_foldl_addAsset]

theorem locatorList_add (self : ResourceLocator) (locator : IResourceLocatorProvider) :
    (self.add locator).locatorList = self.locatorList ++ [locator] := rfl

theorem addAll_append_singleton (ps : List IResourceLocatorProvider)
    (p : IResourceLocatorProvider) : addAll (ps ++ [p]) = (addAll ps).add p := by
  simp [addAll, List.foldl_append]

theorem locatorList_addAll (ps : List IResourceLocatorProvider) :
    (addAll ps).locatorList = ps := by
  induction ps using List.reverseRecOn with
  | nil => rfl
  | append_singleton ps p ih => rw [addAll_append_singleton, locatorList_add, ih]

theorem getElem?_lt_of_eq_some {α : Type} (l : List α) (i : Nat) (a : α)
    (h : l[i]? = some a) : i < l.length := by
  by_contra hge
  rw [List.getElem?_eq_none (Nat.le_of_not_lt hge)] at h
  cases h

theorem getElem?_append_of_eq_some {α : Type} (l l2 : List α) (i : Nat) (a : α)
    (h : l[i]? = some a) : (l ++ l2)[i]? = some a := by
  rw [List.getElem?_append_left (getElem?_lt_of_eq_some l i a h)]
  exact h

theorem getElem?_append_length {α : Type} (xs ys : List α) (p : α) :
    (xs ++ p :: ys)[xs.length]? = some p := by
  induction xs with
  | nil => simp
  | cons x xs ih => simpa using ih

theorem getElem?_append_singleton_cases {α : Type} (l : List α) (p : α) (j : Nat) (q : α)
    (h : (l ++ [p])[j]? = some q) : l[j]? = some q ∨ (j = l.length ∧ q = p) := by
  by_cases hj : j < l.length
  · rw [List.getElem?_append_left hj] at h
    exact Or.inl h
  · have hlt := getElem?_lt_of_eq_some _ _ _ h
    simp at hlt
    have hje : j = l.length := by omega
    subst hje
    simp at h
    exact Or.inr ⟨rfl, h.symm⟩

/-- The index after a sequence of `add` calls, name by name: a name without entry is listed by
no provider, and an entry points to a listing provider of maximal priority that every
earlier listing provider is strictly below. -/
theorem addAll_index (ps : List IResourceLocatorProvider) (n : String) :
    (find (addAll ps).locators n = none → ∀ q ∈ ps, n ∉ q.getAssetDatabase.getAssets) ∧
    (∀ w, find (addAll ps).locators n = some w →
      ps[w.slot]? = some w.target ∧ n ∈ w.target.getAssetDatabase.getAssets ∧
      (∀ q ∈ ps, n ∈ q.getAssetDatabase.getAssets → q.getPriority ≤ w.target.getPriority) ∧
      (∀ j q, j < w.slot → ps[j]? = some q → n ∈ q.getAssetDatabase.getAssets →
        q.getPriority < w.target.getPriority)) := by
  induction ps using List.reverseRecOn with
  | nil =>
    constructor
    · intro _ q hq
      cases hq
    · intro w hw
      simp [addAll, new, find] at hw
  | append_singleton ps p ih =>
    obtain ⟨ihn, ihs⟩ := ih
    rw [addAll_append_singleton, find_add, locatorList_addAll]
    by_cases hmem : n ∈ p.getAssetDatabase.getAssets
    · simp only [hmem, if_true]
      cases hf : find (addAll ps).locators n with
      | none =>
        have hno := ihn hf
        constructor
        · intro h
          simp [arbitrate] at h
        · intro w hw
          simp only [arbitrate, Option.some.injEq] at hw
          subst hw
          refine ⟨by simp, hmem, ?_, ?_⟩
          · intro q hq hqn
            rcases List.mem_append.1 hq with h | h
            · exact absurd hqn (hno q h)
            · simp at h
              subst h
              exact le_refl _
          · intro j q hj hjq hqn
            have hjq2 : ps[j]? = some q := by
              rw [List.getElem?_append_left hj] at hjq
              exact hjq
            exact absurd hqn (hno q (List.mem_iff_getElem?.2 ⟨j, hjq2⟩))
      | some c =>
        obtain ⟨h1, h2, h3, h4⟩ := ihs c hf
        by_cases hp : c.target.getPriority < p.getPriority
        · constructor
          · intro h
            simp [arbitrate, hp] at h
          · intro w hw
            simp only [arbitrate, hp, if_true, Option.some.injEq] at hw
            subst hw
            refine ⟨by simp, hmem, ?_, ?_⟩
            · intro q hq hqn
              rcases List.mem_append.1 hq with h | h
              · exact le_of_lt (lt_of_le_of_lt (h3 q h hqn) hp)
              · simp at h
                subst h
                exact le_refl _
            · intro j q hj hjq hqn
              have hjq2 : ps[j]? = some q := by
                rw [List.getElem?_append_left hj] at hjq
                exact hjq
              exact lt_of_le_of_lt (h3 q (List.mem_iff_getElem?.2 ⟨j, hjq2⟩) hqn) hp
        · constructor
          · intro h
            simp [arbitrate, hp] at h
          · intro w hw
            simp only [arbitrate, hp, if_false, Option.some.injEq] at hw
            subst hw
            refine ⟨getElem?_append_of_eq_some _ _ _ _ h1, h2, ?_, ?_⟩
            · intro q hq hqn
              rcases List.mem_append.1 hq with h | h
              · exact h3 q h hqn
              · simp at h
                subst h
                exact not_lt.1 hp
            · intro j q hj hjq hqn
              have hlt := getElem?_lt_of_eq_some _ _ _ h1
              have hjq2 : ps[j]? = some q := by
                rw [List.getElem?_append_left (lt_trans hj hlt)] at hjq
                exact hjq
              exact h4 j q hj hjq2 hqn
    · simp only [hmem, if_false]
      constructor
      · intro h q hq
        rcases List.mem_append.1 hq with h2 | h2
        · exact ihn h q h2
        · simp at h2
          subst h2
          exact hmem
      · intro w hw
        obtain ⟨h1, h2, h3, h4⟩ := ihs w hw
        refine ⟨getElem?_append_of_eq_some _ _ _ _ h1, h2, ?_, ?_⟩
        · intro q hq hqn
          rcases List.mem_append.1 hq with h | h
          · exact h3 q h hqn
          · simp at h
            subst h
            exact absurd hqn hmem
        · intro j q hj hjq hqn
          have hlt := getElem?_lt_of_eq_some _ _ _ h1
          have hjq2 : ps[j]? = some q := by
            rw [List.getElem?_append_left (lt_trans hj hlt)] at hjq
            exact hjq
          exact h4 j q hj hjq2 hqn

/-! ## Arbitration -/

/-- C1: index invariant of `add`. After any finite sequence of `add` calls on an empty
resolver, the provider list is the sequence added and, for every name `n` with an index entry
`w`, the entry points to the registered provider in slot `w.slot`, which (i) lists `n`,
(ii) has a priority at least that of every registered provider listing `n`, and (iii) sits
in the earliest slot among the registered providers that list `n` with that priority. -/
theorem add_index_invariant (ps : List IResourceLocatorProvider) (n : String) (w : ProviderRef)
    (h : find (addAll ps).locators n = some w) :
    (addAll ps).locatorList = ps ∧
    (addAll ps).locatorList[w.slot]? = some w.target ∧
    n ∈ w.target.getAssetDatabase.getAssets ∧
    (∀ q ∈ (addAll ps).locatorList, n ∈ q.getAssetDatabase.getAssets →
      q.getPriority ≤ w.target.getPriority) ∧
    (∀ j q, (addAll ps).locatorList[j]? = some q → n ∈ q.getAssetDatabase.getAssets →
      q.getPriority = w.target.getPriority → w.slot ≤ j) := by
  obtain ⟨h1, h2, h3, h4⟩ := (addAll_index ps n).2 w h
  rw [locatorList_addAll]
  refine ⟨rfl, h1, h2, h3, ?_⟩
  intro j q hjq hqn hpq
  by_contra hlt
  have := h4 j q (Nat.lt_of_not_le hlt) hjq hqn
  omega

theorem add_index_invariant_witness :
    find (addAll [sampleP1, sampleP2, sampleP3]).locators "a" = some ⟨1, sampleP2⟩ ∧
    ((addAll [sampleP1, sampleP2, sampleP3]).locatorList = [sampleP1, sampleP2, sampleP3] ∧
    (addAll [sampleP1, sampleP2, sampleP3]).locatorList[1]? = some sampleP2 ∧
    "a" ∈ sampleP2.getAssetDatabase.getAssets ∧
    (∀ q ∈ (addAll [sampleP1, sampleP2, sampleP3]).locatorList,
      "a" ∈ q.getAssetDatabase.getAssets → q.getPriority ≤ sampleP2.getPriority) ∧
    (∀ j q, (addAll [sampleP1, sampleP2, sampleP3]).locatorList[j]? = some q →
      "a" ∈ q.getAssetDatabase.getAssets → q.getPriority = sampleP2.getPriority → 1 ≤ j)) :=
  ⟨rfl, add_index_invariant [sampleP1, sampleP2, sampleP3] "a" ⟨1, sampleP2⟩ rfl⟩

theorem find_foldl_add_of_not_listed (A : String) (zs : List IResourceLocatorProvider) :
    ∀ r : ResourceLocator, (∀ q ∈ zs, A ∉ q.getAssetDatabase.getAssets) →
      find (zs.foldl add r).locators A = find r.locators A := by
  induction zs with
  | nil => intro r _; rfl
  | cons z zs ih =>
    intro r h
    rw [List.foldl_cons, ih _ (fun q hq => h q (List.mem_cons_of_mem _ hq)), find_add]
    simp [h z (List.mem_cons_self _ _)]

theorem addAll_append (xs ys : List IResourceLocatorProvider) :
    addAll (xs ++ ys) = ys.foldl add (addAll xs) := by
  simp [addAll, List.foldl_append]

/-- The result and the effects of `getResource` on a name with an index entry. -/
theorem getResource_of_find (self : ResourceLocator) (asset : String) (type : AssetType)
    (stream : Bool) (w : ProviderRef) (h : find self.locators asset = some w) :
    self.getResource asset type stream =
      (fetched asset (w.target.getData asset type stream),
        [Effect.getData w.slot asset type stream]) := by
  unfold getResource
  rw [h]
  dsimp only
  cases w.target.getData asset type stream <;> rfl

/-- The result and the effects of `getResource` on a name without index entry. -/
theorem getResource_of_find_none (self : ResourceLocator) (asset : String) (type : AssetType)
    (stream : Bool) (h : find self.locators asset = none) :
    self.getResource asset type stream = (.error (assetNotFound asset), []) := by
  unfold getResource
  rw [h]
  rfl

/-- C2: priority arbitration. For providers `P1` of priority 1 and `P2` of priority 2 that both
list `A`, on an empty resolver `getResource A type stream` delegates to `P2` in either order of
registration: the index entry of `A` points to `P2` (slot 1 after `add P1; add P2`, slot 0
after `add P2; add P1`), the one fetch made is on that slot, and the result is what `P2`
fetched. -/
theorem getResource_priority_arbitration (P1 P2 : IResourceLocatorProvider) (A : String)
    (type : AssetType) (stream : Bool)
    (hp1 : P1.getPriority = 1) (hp2 : P2.getPriority = 2)
    (h1 : A ∈ P1.getAssetDatabase.getAssets) (h2 : A ∈ P2.getAssetDatabase.getAssets) :
    (find ((new.add P1).add P2).locators A = some ⟨1, P2⟩ ∧
      ((new.add P1).add P2).locatorList[1]? = some P2 ∧
      ((new.add P1).add P2).getResource A type stream =
        (fetched A (P2.getData A type stream), [Effect.getData 1 A type stream])) ∧
    (find ((new.add P2).add P1).locators A = some ⟨0, P2⟩ ∧
      ((new.add P2).add P1).locatorList[0]? = some P2 ∧
      ((new.add P2).add P1).getResource A type stream =
        (fetched A (P2.getData A type stream), [Effect.getData 0 A type stream])) := by
  have e12 : find ((new.add P1).add P2).locators A = some ⟨1, P2⟩ := by
    rw [find_add, find_add]
    simp [h1, h2, arbitrate, hp1, hp2, new, find, locatorList_add]
  have e21 : find ((new.add P2).add P1).locators A = some ⟨0, P2⟩ := by
    rw [find_add, find_add]
    simp [h1, h2, arbitrate, hp1, hp2, new, find, locatorList_add]
  refine ⟨⟨e12, by simp [locatorList_add, new], ?_⟩, ⟨e21, by simp [locatorList_add, new], ?_⟩⟩
  · exact getResource_of_find _ A type stream _ e12
  · exact getResource_of_find _ A type stream _ e21

theorem getResource_priority_arbitration_witness :
    (find ((new.add sampleP1).add sampleP2).locators "a" = some ⟨1, sampleP2⟩ ∧
      ((new.add sampleP1).add sampleP2).locatorList[1]? = some sampleP2 ∧
      ((new.add sampleP1).add sampleP2).getResource "a" AssetType.texture false =
        (fetched "a" (sampleP2.getData "a" AssetType.texture false),
          [Effect.getData 1 "a" AssetType.texture false])) ∧
    (find ((new.add sampleP2).add sampleP1).locators "a" = some ⟨0, sampleP2⟩ ∧
      ((new.add sampleP2).add sampleP1).locatorList[0]? = some sampleP2 ∧
      ((new.add sampleP2).add sampleP1).getResource "a" AssetType.texture false =
        (fetched "a" (sampleP2.getData "a" AssetType.texture false),
          [Effect.getData 0 "a" AssetType.texture false])) :=
  getResource_priority_arbitration sampleP1 sampleP2 "a" AssetType.texture false rfl rfl
    (by decide) (by decide)

/-- C3: tie-break stability. For providers `P1` and `P2` of equal priority that both list `A`,
with `P1` added before `P2`, the index entry of `A` after both are added is `P1`; and it is
still `P1` (in the slot where it was registered) when providers that do not list `A` are
added before (`xs`), between (`ys`) and after (`zs`) them. -/
theorem add_tie_break_stable (xs ys zs : List IResourceLocatorProvider)
    (P1 P2 : IResourceLocatorProvider) (A : String)
    (hprio : P1.getPriority = P2.getPriority)
    (h1 : A ∈ P1.getAssetDatabase.getAssets) (h2 : A ∈ P2.getAssetDatabase.getAssets)
    (hxs : ∀ q ∈ xs, A ∉ q.getAssetDatabase.getAssets)
    (hys : ∀ q ∈ ys, A ∉ q.getAssetDatabase.getAssets)
    (hzs : ∀ q ∈ zs, A ∉ q.getAssetDatabase.getAssets) :
    find ((new.add P1).add P2).locators A = some ⟨0, P1⟩ ∧
    find (addAll (xs ++ [P1] ++ ys ++ [P2] ++ zs)).locators A = some ⟨xs.length, P1⟩ ∧
    (addAll (xs ++ [P1] ++ ys ++ [P2] ++ zs)).locatorList[xs.length]? = some P1 := by
  refine ⟨?_, ?_, ?_⟩
  · rw [find_add, find_add]
    simp [h1, h2, arbitrate, hprio, new, find, locatorList_add]
  · have hx : find (addAll xs).locators A = none := by
      have := find_foldl_add_of_not_listed A xs new hxs
      simpa [addAll, new, find] using this
    have hxp : find (addAll (xs ++ [P1])).locators A = some ⟨xs.length, P1⟩ := by
      rw [addAll_append_singleton, find_add, hx, locatorList_addAll]
      simp [h1, arbitrate]
    have hxpy : find (addAll (xs ++ [P1] ++ ys)).locators A = some ⟨xs.length, P1⟩ := by
      rw [addAll_append, find_foldl_add_of_not_listed A ys _ hys, hxp]
    have hxpyp : find (addAll (xs ++ [P1] ++ ys ++ [P2])).locators A =
        some ⟨xs.length, P1⟩ := by
      rw [addAll_append_singleton, find_add, hxpy]
      simp [h2, arbitrate, hprio]
    rw [addAll_append, find_foldl_add_of_not_listed A zs _ hzs, hxpyp]
  · rw [locatorList_addAll]
    simp only [List.append_assoc, List.singleton_append]
    exact getElem?_append_length xs _ P1

theorem add_tie_break_stable_witness :
    find ((new.add sampleP2).add sampleP3).locators "a" = some ⟨0, sampleP2⟩ ∧
    find (addAll ([sampleP4] ++ [sampleP2] ++ [sampleP4, sampleP4] ++ [sampleP3] ++
      [sampleP4])).locators "a" = some ⟨[sampleP4].length, sampleP2⟩ ∧
    (addAll ([sampleP4] ++ [sampleP2] ++ [sampleP4, sampleP4] ++ [sampleP3] ++
      [sampleP4])).locatorList[[sampleP4].length]? = some sampleP2 :=
  add_tie_break_stable [sampleP4] [sampleP4, sampleP4] [sampleP4] sampleP2 sampleP3 "a" rfl
    (by decide) (by decide) (by decide) (by decide) (by decide)

/-! ## Fetching -/

/-- After a sequence of `add` calls, a name has no index entry exactly when no registered
provider lists it. -/
theorem find_addAll_eq_none_iff (ps : List IResourceLocatorProvider) (n : String) :
    find (addAll ps).locators n = none ↔ ∀ q ∈ ps, n ∉ q.getAssetDatabase.getAssets := by
  constructor
  · exact (addAll_index ps n).1
  · intro h
    cases hf : find (addAll ps).locators n with
    | none => rfl
    | some w =>
      obtain ⟨h1, h2, _, _⟩ := (addAll_index ps n).2 w hf
      exact absurd h2 (h w.target (List.mem_iff_getElem?.2 ⟨w.slot, h1⟩))

/-- C4: on a resolver built by `add` calls, `getResource name type stream` fails with the
not-found error ("Unable to locate resource") if and only if no registered provider's database
lists `name`; and in that case it makes no call at all, so no provider's `getData` runs. -/
theorem getResource_not_found_iff (ps : List IResourceLocatorProvider) (name : String)
    (type : AssetType) (stream : Bool) :
    (((addAll ps).getResource name type stream).1 = .error (assetNotFound name) ↔
      ∀ q ∈ (addAll ps).locatorList, name ∉ q.getAssetDatabase.getAssets) ∧
    ((∀ q ∈ (addAll ps).locatorList, name ∉ q.getAssetDatabase.getAssets) →
      ((addAll ps).getResource name type stream).2 = []) := by
  rw [locatorList_addAll, ← find_addAll_eq_none_iff]
  constructor
  · constructor
    · intro h
      cases hf : find (addAll ps).locators name with
      | none => rfl
      | some w =>
        rw [getResource_of_find _ _ _ _ w hf] at h
        cases hd : w.target.getData name type stream with
        | none =>
          rw [hd] at h
          simp only [fetched, Except.error.injEq] at h
          exact absurd h (assetLoadFailed_ne_assetNotFound _ _)
        | some d =>
          rw [hd] at h
          simp [fetched] at h
    · intro h
      rw [getResource_of_find_none _ _ _ _ h]
  · intro h
    rw [getResource_of_find_none _ _ _ _ h]

theorem getResource_not_found_iff_witness :
    ((addAll [sampleP1, sampleP4]).getResource "b" AssetType.font true).1 =
      .error (assetNotFound "b") ∧
    ((addAll [sampleP1, sampleP4]).getResource "b" AssetType.font true).2 = [] :=
  ⟨(getResource_not_found_iff [sampleP1, sampleP4] "b" AssetType.font true).1.2 (by decide),
    (getResource_not_found_iff [sampleP1, sampleP4] "b" AssetType.font true).2 (by decide)⟩

/-- C5: when `name` has the index entry `w`, `getResource name type stream` makes exactly one
call, the fetch `getData name type stream` on the winner (slot `w.slot`), and none on any other
provider; it returns exactly the data fetched when there is some, and fails with the
load-failed error ("Unable to load resource") if and only if the fetch returns no data. -/
theorem getResource_delegates (self : ResourceLocator) (name : String) (type : AssetType)
    (stream : Bool) (w : ProviderRef) (h : find self.locators name = some w) :
    (self.getResource name type stream).2 = [Effect.getData w.slot name type stream] ∧
    (∀ data, w.target.getData name type stream = some data →
      (self.getResource name type stream).1 = .ok data) ∧
    ((self.getResource name type stream).1 = .error (assetLoadFailed name) ↔
      w.target.getData name type stream = none) := by
  rw [getResource_of_find _ _ _ _ w h]
  refine ⟨rfl, ?_, ?_⟩
  · intro data hd
    rw [hd]
    rfl
  · cases hd : w.target.getData name type stream with
    | none => simp [fetched]
    | some d => simp [fetched]

theorem getResource_delegates_witness :
    find (addAll [sampleP1, sampleP4]).locators "c" = some ⟨1, sampleP4⟩ ∧
    (((addAll [sampleP1, sampleP4]).getResource "c" AssetType.audio false).2 =
      [Effect.getData 1 "c" AssetType.audio false] ∧
    (∀ data, sampleP4.getData "c" AssetType.audio false = some data →
      ((addAll [sampleP1, sampleP4]).getResource "c" AssetType.audio false).1 = .ok data) ∧
    (((addAll [sampleP1, sampleP4]).getResource "c" AssetType.audio false).1 =
        .error (assetLoadFailed "c") ↔
      sampleP4.getData "c" AssetType.audio false = none)) :=
  ⟨rfl, getResource_delegates (addAll [sampleP1, sampleP4]) "c" AssetType.audio false
    ⟨1, sampleP4⟩ rfl⟩

/-- The errors `getResource` can raise. -/
theorem getResource_error_cases (self : ResourceLocator) (name : String) (type : AssetType)
    (stream : Bool) (e : Exception) (h : (self.getResource name type stream).1 = .error e) :
    e = assetNotFound name ∨ e = assetLoadFailed name := by
  cases hf : find self.locators name with
  | none =>
    rw [getResource_of_find_none _ _ _ _ hf] at h
    simp only [Except.error.injEq] at h
    exact Or.inl h.symm
  | some w =>
    rw [getResource_of_find _ _ _ _ w hf] at h
    cases hd : w.target.getData name type stream with
    | none =>
      rw [hd] at h
      simp only [fetched, Except.error.injEq] at h
      exact Or.inr h.symm
    | some d =>
      rw [hd] at h
      simp [fetched] at h

/-- C6: `getStatic name type` is decided by `getResource name type false` (the request is made
with stream = false, and its calls are those of that request, followed by the release of the
data on a mismatch): it returns data `d` if and only if that request succeeds with the static
variant holding `d`; it fails with the mismatch error ("obtained, but is not static data") if
and only if that request succeeds with a stream variant; and an error of that request (not
found, load failed) is passed on unchanged. -/
theorem getStatic_contract (self : ResourceLocator) (name : String) (type : AssetType) :
    (∀ d, (self.getStatic name type).1 = .ok d ↔
      (self.getResource name type false).1 = .ok (.static d)) ∧
    ((self.getStatic name type).1 = .error (notStaticData name) ↔
      ∃ d, (self.getResource name type false).1 = .ok (.stream d)) ∧
    (∀ e, (self.getResource name type false).1 = .error e →
      self.getStatic name type = (.error e, (self.getResource name type false).2)) ∧
    (∀ d, (self.getResource name type false).1 = .ok (.static d) →
      (self.getStatic name type).2 = (self.getResource name type false).2) ∧
    (∀ d, (self.getResource name type false).1 = .ok (.stream d) →
      (self.getStatic name type).2 =
        (self.getResource name type false).2 ++ [Effect.deleteData (.stream d)]) := by
  have herr := getResource_error_cases self name type false
  unfold getStatic
  rcases hg : self.getResource name type false with ⟨res, fx⟩
  rw [hg] at herr
  cases res with
  | error e =>
    have he := herr e rfl
    refine ⟨?_, ?_, ?_, ?_, ?_⟩
    · intro d
      simp
    · constructor
      · intro h
        simp only [Except.error.injEq] at h
        rcases he with he | he
        · exact absurd (he ▸ h).symm (notStaticData_ne_assetNotFound _ _)
        · exact absurd (he ▸ h).symm (notStaticData_ne_assetLoadFailed _ _)
      · rintro ⟨d, hd⟩
        simp at hd
    · intro e2 h2
      simp only [Except.error.injEq] at h2
      subst h2
      rfl
    · intro d hd
      simp at hd
    · intro d hd
      simp at hd
  | ok rawPtr =>
    cases rawPtr with
    | static d0 =>
      refine ⟨?_, ?_, ?_, ?_, ?_⟩
      · intro d
        simp [ResourceData.asStatic]
      · simp [ResourceData.asStatic]
      · intro e h2
        simp at h2
      · intro d _
        rfl
      · intro d hd
        simp at hd
    | stream d0 =>
      refine ⟨?_, ?_, ?_, ?_, ?_⟩
      · intro d
        simp [ResourceData.asStatic]
      · simp [ResourceData.asStatic, notStaticData]
      · intro e h2
        simp at h2
      · intro d hd
        simp at hd
      · intro d hd
        simp only [Except.ok.injEq, ResourceData.stream.injEq] at hd
        subst hd
        rfl

theorem getStatic_contract_witness :
    ((addAll [sampleP2, sampleP3]).getResource "b" AssetType.texture false).1 =
      .ok (.stream { size := 1, bytes := [3] }) ∧
    (addAll [sampleP2, sampleP3]).getStatic "b" AssetType.texture =
      (.error (notStaticData "b"),
        [Effect.getData 1 "b" AssetType.texture false,
          Effect.deleteData (.stream { size := 1, bytes := [3] })]) ∧
    ((addAll [sampleP2, sampleP3]).getResource "a" AssetType.texture false).1 =
      .ok (.static { bytes := [2] }) ∧
    ((addAll [sampleP2, sampleP3]).getStatic "a" AssetType.texture).1 =
      .ok { bytes := [2] } ∧
    ((addAll [sampleP2, sampleP3]).getResource "z" AssetType.texture false).1 =
      .error (assetNotFound "z") ∧
    (addAll [sampleP2, sampleP3]).getStatic "z" AssetType.texture =
      (.error (assetNotFound "z"), []) :=
  ⟨rfl,
    Prod.ext
      ((getStatic_contract (addAll [sampleP2, sampleP3]) "b" AssetType.texture).2.1.2 ⟨_, rfl⟩)
      ((getStatic_contract (addAll [sampleP2, sampleP3]) "b" AssetType.texture).2.2.2.2 _ rfl),
    rfl,
    ((getStatic_contract (addAll [sampleP2, sampleP3]) "a" AssetType.texture).1 _).2 rfl,
    rfl,
    (getStatic_contract (addAll [sampleP2, sampleP3]) "z" AssetType.texture).2.2.1 _ rfl⟩

/-- C7: `getStream name type` is the mirror image of `getStatic`, decided by
`getResource name type true` (the request is made with stream = true, and its calls are those
of that request, followed by the release of the data on a mismatch): it returns data `d` if and
only if that request succeeds with the stream variant holding `d`; it fails with the mismatch
error ("obtained, but is not stream data") if and only if that request succeeds with a static
variant; and an error of that request is passed on unchanged. -/
theorem getStream_contract (self : ResourceLocator) (name : String) (type : AssetType) :
    (∀ d, (self.getStream name type).1 = .ok d ↔
      (self.getResource name type true).1 = .ok (.stream d)) ∧
    ((self.getStream name type).1 = .error (notStreamData name) ↔
      ∃ d, (self.getResource name type true).1 = .ok (.static d)) ∧
    (∀ e, (self.getResource name type true).1 = .error e →
      self.getStream name type = (.error e, (self.getResource name type true).2)) ∧
    (∀ d, (self.getResource name type true).1 = .ok (.stream d) →
      (self.getStream name type).2 = (self.getResource name type true).2) ∧
    (∀ d, (self.getResource name type true).1 = .ok (.static d) →
      (self.getStream name type).2 =
        (self.getResource name type true).2 ++ [Effect.deleteData (.static d)]) := by
  have herr := getResource_error_cases self name type true
  unfold getStream
  rcases hg : self.getResource name type true with ⟨res, fx⟩
  rw [hg] at herr
  cases res with
  | error e =>
    have he := herr e rfl
    refine ⟨?_, ?_, ?_, ?_, ?_⟩
    · intro d
      simp
    · constructor
      · intro h
        simp only [Except.error.injEq] at h
        rcases he with he | he
        · exact absurd (he ▸ h).symm (notStreamData_ne_assetNotFound _ _)
        · exact absurd (he ▸ h).symm (notStreamData_ne_assetLoadFailed _ _)
      · rintro ⟨d, hd⟩
        simp at hd
    · intro e2 h2
      simp only [Except.error.injEq] at h2
      subst h2
      rfl
    · intro d hd
      simp at hd
    · intro d hd
      simp at hd
  | ok rawPtr =>
    cases rawPtr with
    | stream d0 =>
      refine ⟨?_, ?_, ?_, ?_, ?_⟩
      · intro d
        simp [ResourceData.asStream]
      · simp [ResourceData.asStream]
      · intro e h2
        simp at h2
      · intro d _
        rfl
      · intro d hd
        simp at hd
    | static d0 =>
      refine ⟨?_, ?_, ?_, ?_, ?_⟩
      · intro d
        simp [ResourceData.asStream]
      · simp [ResourceData.asStream, notStreamData]
      · intro e h2
        simp at h2
      · intro d hd
        simp at hd
      · intro d hd
        simp only [Except.ok.injEq, ResourceData.static.injEq] at hd
        subst hd
        rfl

theorem getStream_contract_witness :
    ((addAll [sampleP2, sampleP3]).getResource "a" AssetType.texture true).1 =
      .ok (.static { bytes := [2] }) ∧
    (addAll [sampleP2, sampleP3]).getStream "a" AssetType.texture =
      (.error (notStreamData "a"),
        [Effect.getData 0 "a" AssetType.texture true,
          Effect.deleteData (.static { bytes := [2] })]) ∧
    ((addAll [sampleP2, sampleP3]).getResource "b" AssetType.texture true).1 =
      .ok (.stream { size := 1, bytes := [3] }) ∧
    ((addAll [sampleP2, sampleP3]).getStream "b" AssetType.texture).1 =
      .ok { size := 1, bytes := [3] } ∧
    ((addAll [sampleP1, sampleP4]).getResource "c" AssetType.texture true).1 =
      .error (assetLoadFailed "c") ∧
    (addAll [sampleP1, sampleP4]).getStream "c" AssetType.texture =
      (.error (assetLoadFailed "c"), [Effect.getData 1 "c" AssetType.texture true]) :=
  ⟨rfl,
    Prod.ext
      ((getStream_contract (addAll [sampleP2, sampleP3]) "a" AssetType.texture).2.1.2 ⟨_, rfl⟩)
      ((getStream_contract (addAll [sampleP2, sampleP3]) "a" AssetType.texture).2.2.2.2 _ rfl),
    rfl,
    ((getStream_contract (addAll [sampleP2, sampleP3]) "b" AssetType.texture).1 _).2 rfl,
    rfl,
    (getStream_contract (addAll [sampleP1, sampleP4]) "c" AssetType.texture).2.2.1 _ rfl⟩

/-! ## Purge -/

/-- C8: known-name purge is scoped. When `name` has the index entry `w`, `purge name type`
makes exactly one call, a purge of the winner (slot `w.slot`): the winner is purged once and
every other provider zero times. -/
theorem purge_known_scoped (self : ResourceLocator) (name : String) (type : AssetType)
    (w : ProviderRef) (h : find self.locators name = some w) :
    (self.purge name type).2 = [Effect.purge w.slot] ∧
    (self.purge name type).2.count (Effect.purge w.slot) = 1 ∧
    (∀ j, j ≠ w.slot → (self.purge name type).2.count (Effect.purge j) = 0) := by
  have he : (self.purge name type).2 = [Effect.purge w.slot] := by
    unfold purge
    rw [h]
  rw [he]
  refine ⟨rfl, by simp, ?_⟩
  intro j hj
  exact List.count_eq_zero.2 (by simp [hj])

theorem purge_known_scoped_witness :
    find (addAll [sampleP1, sampleP2, sampleP4]).locators "a" = some ⟨1, sampleP2⟩ ∧
    (((addAll [sampleP1, sampleP2, sampleP4]).purge "a" AssetType.texture).2 =
      [Effect.purge 1] ∧
    ((addAll [sampleP1, sampleP2, sampleP4]).purge "a" AssetType.texture).2.count
      (Effect.purge 1) = 1 ∧
    (∀ j, j ≠ 1 →
      ((addAll [sampleP1, sampleP2, sampleP4]).purge "a" AssetType.texture).2.count
        (Effect.purge j) = 0)) :=
  ⟨rfl, purge_known_scoped (addAll [sampleP1, sampleP2, sampleP4]) "a" AssetType.texture
    ⟨1, sampleP2⟩ rfl⟩

theorem purge_injective : Function.Injective Effect.purge := by
  intro a b h
  cases h
  rfl

/-- C9: unknown-name purge broadcasts. When `name` has no index entry, `purge name type` makes
one purge call per registered provider and nothing else, in registration order (slot 0 first):
each registered provider is purged exactly once. -/
theorem purge_unknown_broadcasts (self : ResourceLocator) (name : String) (type : AssetType)
    (h : find self.locators name = none) :
    (self.purge name type).2 = (List.range self.locatorList.length).map Effect.purge ∧
    (self.purge name type).2.length = self.locatorList.length ∧
    (∀ j, j < self.locatorList.length →
      (self.purge name type).2.count (Effect.purge j) = 1) := by
  have he : (self.purge name type).2 =
      (List.range self.locatorList.length).map Effect.purge := by
    unfold purge
    rw [h]
    simp only
    rw [← List.enum_map_fst, List.map_map]
    rfl
  rw [he]
  refine ⟨rfl, by simp, ?_⟩
  intro j hj
  rw [List.count_map_of_injective _ _ purge_injective]
  exact List.count_eq_one_of_mem (List.nodup_range _) (List.mem_range.2 hj)

theorem purge_unknown_broadcasts_witness :
    find (addAll [sampleP1, sampleP2, sampleP4]).locators "never-registered" = none ∧
    (((addAll [sampleP1, sampleP2, sampleP4]).purge "never-registered" AssetType.texture).2 =
      (List.range (addAll [sampleP1, sampleP2, sampleP4]).locatorList.length).map
        Effect.purge ∧
    ((addAll [sampleP1, sampleP2, sampleP4]).purge "never-registered"
      AssetType.texture).2.length = (addAll [sampleP1, sampleP2, sampleP4]).locatorList.length ∧
    (∀ j, j < (addAll [sampleP1, sampleP2, sampleP4]).locatorList.length →
      ((addAll [sampleP1, sampleP2, sampleP4]).purge "never-registered"
        AssetType.texture).2.count (Effect.purge j) = 1)) :=
  ⟨rfl, purge_unknown_broadcasts (addAll [sampleP1, sampleP2, sampleP4]) "never-registered"
    AssetType.texture rfl⟩

/-- C10: `purge name type` never alters the resolver's own state: the state after the call is
the state before it, so the name index and the ordered provider list are identical, and
`exists` and the index entry of every name are unchanged. -/
theorem purge_frame (self : ResourceLocator) (name : String) (type : AssetType) :
    (self.purge name type).1 = self ∧
    (self.purge name type).1.locators = self.locators ∧
    (self.purge name type).1.locatorList = self.locatorList ∧
    (∀ n, (self.purge name type).1.exists_ n = self.exists_ n) ∧
    (∀ n, find (self.purge name type).1.locators n = find self.locators n) := by
  have he : (self.purge name type).1 = self := by
    unfold purge
    cases find self.locators name <;> rfl
  rw [he]
  exact ⟨rfl, rfl, rfl, fun _ => rfl, fun _ => rfl⟩

/-! ## Enumeration -/

theorem foldl_push_back (xs : List String) :
    ∀ init : List String, xs.foldl (fun acc r => acc ++ [r]) init = init ++ xs := by
  induction xs with
  | nil => intro init; simp
  | cons x xs ih => intro init; simp [ih]

theorem foldl_concat_listings (type : AssetType) (ls : List IResourceLocatorProvider) :
    ∀ init : List String,
      ls.foldl
          (fun result l =>
            (l.getAssetDatabase.enumerate type).foldl (fun acc r => acc ++ [r]) result)
          init =
        init ++ ls.flatMap (fun l => l.getAssetDatabase.enumerate type) := by
  induction ls with
  | nil => intro init; simp
  | cons l ls ih =>
    intro init
    rw [List.foldl_cons, ih, foldl_push_back, List.flatMap_cons, List.append_assoc]

/-- The listing `enumerate type` is the concatenation of the providers' listings. -/
theorem enumerate_eq_flatMap (self : ResourceLocator) (type : AssetType) :
    self.enumerate type =
      self.locatorList.flatMap (fun l => l.getAssetDatabase.enumerate type) := by
  unfold enumerate
  rw [foldl_concat_listings]
  simp

theorem getElem?_le_sum (xs : List Nat) :
    ∀ (j b : Nat), xs[j]? = some b → b ≤ xs.sum := by
  induction xs with
  | nil => intro j b h; simp at h
  | cons x xs ih =>
    intro j b h
    cases j with
    | zero =>
      simp at h
      subst h
      simp
    | succ j =>
      simp at h
      have := ih j b h
      simp
      omega

theorem getElem?_add_le_sum (xs : List Nat) :
    ∀ (i j a b : Nat), i < j → xs[i]? = some a → xs[j]? = some b → a + b ≤ xs.sum := by
  induction xs with
  | nil => intro i j a b _ h; simp at h
  | cons x xs ih =>
    intro i j a b hij hi hj
    cases j with
    | zero => omega
    | succ j =>
      simp at hj
      cases i with
      | zero =>
        simp at hi
        subst hi
        have := getElem?_le_sum xs j b hj
        simp
        omega
      | succ i =>
        simp at hi
        have := ih i j a b (by omega) hi hj
        simp
        omega

/-- C11: `enumerate type` is the concatenation, in registration order, of each registered
provider's listing `enumerate type`, without deduplication or priority filtering: its length
is the sum of the listing lengths, every name occurs as often as in all listings together,
and a name listed under the type by two registered providers (two different slots) occurs at
least twice. -/
theorem enumerate_concatenates (self : ResourceLocator) (type : AssetType) :
    self.enumerate type =
      self.locatorList.flatMap (fun l => l.getAssetDatabase.enumerate type) ∧
    (self.enumerate type).length =
      (self.locatorList.map (fun l => (l.getAssetDatabase.enumerate type).length)).sum ∧
    (∀ A, (self.enumerate type).count A =
      (self.locatorList.map (fun l => (l.getAssetDatabase.enumerate type).count A)).sum) ∧
    (∀ (i j : Nat) (P1 P2 : IResourceLocatorProvider) (A : String), i ≠ j →
      self.locatorList[i]? = some P1 → self.locatorList[j]? = some P2 →
      A ∈ P1.getAssetDatabase.enumerate type → A ∈ P2.getAssetDatabase.enumerate type →
      2 ≤ (self.enumerate type).count A) := by
  have hcount : ∀ A, (self.enumerate type).count A =
      (self.locatorList.map (fun l => (l.getAssetDatabase.enumerate type).count A)).sum := by
    intro A
    rw [enumerate_eq_flatMap, List.count_flatMap]
    rfl
  refine ⟨enumerate_eq_flatMap self type, ?_, hcount, ?_⟩
  · rw [enumerate_eq_flatMap, List.length_flatMap]
    rfl
  · intro i j P1 P2 A hij hi hj h1 h2
    rw [hcount]
    have c1 : 1 ≤ (P1.getAssetDatabase.enumerate type).count A :=
      List.count_pos_iff.2 h1
    have c2 : 1 ≤ (P2.getAssetDatabase.enumerate type).count A :=
      List.count_pos_iff.2 h2
    have gi : (self.locatorList.map
        (fun l => (l.getAssetDatabase.enumerate type).count A))[i]? =
        some ((P1.getAssetDatabase.enumerate type).count A) := by
      rw [List.getElem?_map, hi]
      rfl
    have gj : (self.locatorList.map
        (fun l => (l.getAssetDatabase.enumerate type).count A))[j]? =
        some ((P2.getAssetDatabase.enumerate type).count A) := by
      rw [List.getElem?_map, hj]
      rfl
    rcases Nat.lt_or_gt_of_ne hij with h | h
    · have := getElem?_add_le_sum _ i j _ _ h gi gj
      omega
    · have := getElem?_add_le_sum _ j i _ _ h gj gi
      omega

theorem enumerate_concatenates_witness :
    (addAll [sampleP1, sampleP2]).locatorList[0]? = some sampleP1 ∧
    (addAll [sampleP1, sampleP2]).locatorList[1]? = some sampleP2 ∧
    (addAll [sampleP1, sampleP2]).enumerate AssetType.texture = ["a", "a"] ∧
    2 ≤ ((addAll [sampleP1, sampleP2]).enumerate AssetType.texture).count "a" :=
  ⟨rfl, rfl, rfl,
    (enumerate_concatenates (addAll [sampleP1, sampleP2]) AssetType.texture).2.2.2 0 1
      sampleP1 sampleP2 "a" (by decide) rfl rfl (by decide) (by decide)⟩

/-! ## Existence, registration order -/

theorem find_addAll_isSome_iff (ps : List IResourceLocatorProvider) (n : String) :
    (find (addAll ps).locators n).isSome = true ↔
      ∃ q ∈ ps, n ∈ q.getAssetDatabase.getAssets := by
  have h := find_addAll_eq_none_iff ps n
  constructor
  · intro hs
    by_contra hne
    have hnone : find (addAll ps).locators n = none :=
      h.2 (fun q hq hqn => hne ⟨q, hq, hqn⟩)
    rw [hnone] at hs
    simp at hs
  · rintro ⟨q, hq, hqn⟩
    cases hf : find (addAll ps).locators n with
    | none => exact absurd hqn (h.1 hf q hq)
    | some w => rfl

/-- C12: `exists name` is true if and only if the index has an entry for `name`; on a resolver
built by `add` calls from the empty one this holds if and only if at least one registered
provider's database lists `name`; and the call makes no call on a provider (so no fetch) and
leaves the resolver state as it was. -/
theorem exists_iff_listed (classes : ProviderClasses) (system : SystemAPI)
    (ps : List IResourceLocatorProvider) (name : String) :
    (∀ self : ResourceLocator,
      self.exists_ name = true ↔ ∃ w, find self.locators name = some w) ∧
    ((addAll ps).exists_ name = true ↔
      ∃ q ∈ (addAll ps).locatorList, name ∈ q.getAssetDatabase.getAssets) ∧
    (∀ self : ResourceLocator, perform classes system self (.exists_ name) = (self, [])) := by
  refine ⟨?_, ?_, fun _ => rfl⟩
  · intro self
    unfold exists_
    cases find self.locators name <;> simp
  · rw [locatorList_addAll]
    exact find_addAll_isSome_iff ps name

theorem exists_iff_listed_witness :
    (addAll [sampleP1, sampleP4]).exists_ "c" = true ∧
    (addAll [sampleP1, sampleP4]).exists_ "b" = false ∧
    (∃ q ∈ (addAll [sampleP1, sampleP4]).locatorList, "c" ∈ q.getAssetDatabase.getAssets) :=
  ⟨rfl, rfl,
    (exists_iff_listed sampleClasses sampleSystem [sampleP1, sampleP4] "c").2.1.1 rfl⟩

theorem enumerate_add (self : ResourceLocator) (locator : IResourceLocatorProvider)
    (type : AssetType) :
    (self.add locator).enumerate type =
      self.enumerate type ++ locator.getAssetDatabase.enumerate type := by
  rw [enumerate_eq_flatMap, enumerate_eq_flatMap, locatorList_add]
  simp

theorem purge_of_find_none (self : ResourceLocator) (name : String) (type : AssetType)
    (h : find self.locators name = none) :
    (self.purge name type).2 = (List.range self.locatorList.length).map Effect.purge := by
  unfold purge
  rw [h]
  simp only
  rw [← List.enum_map_fst, List.map_map]
  rfl

/-- C16: `add locator` always appends the provider at the end of the ordered provider list,
whether or not it wins a name: the list after the call is the list before followed by the new
provider, so the length grows by exactly one and the earlier slots are unchanged; hence the
new provider's listing is part of `enumerate`, and a broadcast purge (a purge of a name without
index entry) purges the new provider too. -/
theorem add_appends (self : ResourceLocator) (locator : IResourceLocatorProvider) :
    (self.add locator).locatorList = self.locatorList ++ [locator] ∧
    (self.add locator).locatorList.length = self.locatorList.length + 1 ∧
    (∀ i, i < self.locatorList.length →
      (self.add locator).locatorList[i]? = self.locatorList[i]?) ∧
    (self.add locator).locatorList[self.locatorList.length]? = some locator ∧
    (∀ type, (self.add locator).enumerate type =
      self.enumerate type ++ locator.getAssetDatabase.enumerate type) ∧
    (∀ name type, find (self.add locator).locators name = none →
      Effect.purge self.locatorList.length ∈ ((self.add locator).purge name type).2) := by
  refine ⟨rfl, by simp [locatorList_add], ?_, ?_, enumerate_add self locator, ?_⟩
  · intro i hi
    rw [locatorList_add, List.getElem?_append_left hi]
  · rw [locatorList_add]
    exact getElem?_append_length _ [] locator
  · intro name type h
    rw [purge_of_find_none _ _ _ h, locatorList_add]
    simp

theorem add_appends_witness :
    find ((addAll [sampleP2]).add sampleP1).locators "b" = none ∧
    (∀ n, (find ((addAll [sampleP2]).add sampleP1).locators n).map (fun w => w.slot) ≠ some 1) ∧
    Effect.purge 1 ∈ (((addAll [sampleP2]).add sampleP1).purge "b" AssetType.texture).2 ∧
    ((addAll [sampleP2]).add sampleP1).locatorList[0]? = (addAll [sampleP2]).locatorList[0]? :=
  ⟨rfl,
    by
      intro n
      rw [find_add]
      by_cases h : n = "a"
      · subst h
        decide
      · have hn1 : n ∉ sampleP1.getAssetDatabase.getAssets := by
          simpa [sampleP1, sampleProvider, AssetDatabase.getAssets] using h
        have hn2 : n ∉ sampleP2.getAssetDatabase.getAssets := by
          simpa [sampleP2, sampleProvider, AssetDatabase.getAssets] using h
        have : find (addAll [sampleP2]).locators n = none :=
          (find_addAll_eq_none_iff [sampleP2] n).2 (by simpa using hn2)
        simp [hn1, this],
    (add_appends (addAll [sampleP2]) sampleP1).2.2.2.2.2 "b" AssetType.texture rfl,
    (add_appends (addAll [sampleP2]) sampleP1).2.2.1 0 (by decide)⟩

/-- C17: registration order does not matter when priorities are distinct. For providers with
pairwise distinct priorities and any permutation of them, adding them to an empty resolver in
either order gives every name the same winner: the index either has no entry for the name in
both resolvers, or its entries point to the same provider. -/
theorem add_order_irrelevant (ps qs : List IResourceLocatorProvider) (hperm : ps.Perm qs)
    (hdistinct : ps.Pairwise (fun a b => a.getPriority ≠ b.getPriority)) (n : String) :
    (find (addAll ps).locators n).map (fun w => w.target) =
      (find (addAll qs).locators n).map (fun w => w.target) := by
  have hsame : ∀ a ∈ ps, ∀ b ∈ ps, a.getPriority = b.getPriority → a = b := by
    intro a ha b hb hab
    by_contra hne
    exact List.Pairwise.forall (fun _ _ h => Ne.symm h) hdistinct ha hb hne hab
  cases hp : find (addAll ps).locators n with
  | none =>
    cases hq : find (addAll qs).locators n with
    | none => rfl
    | some w2 =>
      obtain ⟨h1, h2, _, _⟩ := (addAll_index qs n).2 w2 hq
      have hmem : w2.target ∈ ps := hperm.mem_iff.2 (List.mem_iff_getElem?.2 ⟨_, h1⟩)
      exact absurd h2 ((addAll_index ps n).1 hp _ hmem)
  | some w1 =>
    obtain ⟨a1, a2, a3, _⟩ := (addAll_index ps n).2 w1 hp
    have hm1 : w1.target ∈ ps := List.mem_iff_getElem?.2 ⟨_, a1⟩
    cases hq : find (addAll qs).locators n with
    | none =>
      exact absurd a2 ((addAll_index qs n).1 hq _ (hperm.mem_iff.1 hm1))
    | some w2 =>
      obtain ⟨b1, b2, b3, _⟩ := (addAll_index qs n).2 w2 hq
      have hm2 : w2.target ∈ qs := List.mem_iff_getElem?.2 ⟨_, b1⟩
      have le1 := a3 _ (hperm.mem_iff.2 hm2) b2
      have le2 := b3 _ (hperm.mem_iff.1 hm1) a2
      have := hsame _ hm1 _ (hperm.mem_iff.2 hm2) (le_antisymm le2 le1)
      simp [this]

theorem add_order_irrelevant_witness :
    (find (addAll [sampleP1, sampleP2, sampleP4]).locators "a").map (fun w => w.target) =
      (find (addAll [sampleP4, sampleP2, sampleP1]).locators "a").map (fun w => w.target) :=
  add_order_irrelevant [sampleP1, sampleP2, sampleP4] [sampleP4, sampleP2, sampleP1]
    (List.reverse_perm [sampleP1, sampleP2, sampleP4]).symm (by decide) "a"

/-! ## Metadata -/

theorem getMetaData_of_find (self : ResourceLocator) (name : String) (type : AssetType)
    (w : ProviderRef) (h : find self.locators name = some w) :
    self.getMetaData name type = w.target.getAssetDatabase.getMeta type name := by
  unfold getMetaData
  rw [h]

theorem getMetaData_of_find_none (self : ResourceLocator) (name : String) (type : AssetType)
    (h : find self.locators name = none) :
    self.getMetaData name type = .error (assetNotFound name) := by
  unfold getMetaData
  rw [h]
  rfl

theorem getMeta_of_lookup_some (db : AssetDatabase) (name : String) (type : AssetType)
    (record : Metadata) (h : db.records.lookup (name, type) = some record) :
    db.getMeta type name = .ok record := by
  unfold AssetDatabase.getMeta
  rw [h]

theorem getMeta_of_lookup_none (db : AssetDatabase) (name : String) (type : AssetType)
    (h : db.records.lookup (name, type) = none) :
    db.getMeta type name = .error (assetNotFound name) := by
  unfold AssetDatabase.getMeta
  rw [h]
  rfl

/-- C13, as stated, fails: with a single provider listing "x" under the texture type only,
"x" has an indexed winner, yet `getMetaData "x" audio` fails with the not-found error. -/
theorem getMetaData_not_found_iff_counterexample :
    ¬ ((addAll [sampleHigh]).getMetaData "x" AssetType.audio = .error (assetNotFound "x") ↔
      find (addAll [sampleHigh]).locators "x" = none) := by
  intro h
  have h2 := h.1 rfl
  have h3 : (find (addAll [sampleHigh]).locators "x").isSome = true := rfl
  rw [h2] at h3
  cases h3

/-- C13, amended: `getMetaData name type` fails with the not-found error when `name` has no
indexed winner; when a winner exists and its database holds a record under (name, type), it
returns that record of the winner's database (so never one of a lower-priority provider's
database); and it fails with the not-found error if and only if `name` has no indexed winner
or the winner's database holds no record under (name, type). -/
theorem getMetaData_contract (self : ResourceLocator) (name : String) (type : AssetType) :
    (find self.locators name = none →
      self.getMetaData name type = .error (assetNotFound name)) ∧
    (∀ w record, find self.locators name = some w →
      w.target.getAssetDatabase.records.lookup (name, type) = some record →
      self.getMetaData name type = .ok record) ∧
    (self.getMetaData name type = .error (assetNotFound name) ↔
      find self.locators name = none ∨
      ∃ w, find self.locators name = some w ∧
        w.target.getAssetDatabase.records.lookup (name, type) = none) := by
  refine ⟨getMetaData_of_find_none self name type, ?_, ?_⟩
  · intro w record hw hr
    rw [getMetaData_of_find _ _ _ w hw, getMeta_of_lookup_some _ _ _ _ hr]
  · cases hf : find self.locators name with
    | none => simp [getMetaData_of_find_none _ _ _ hf]
    | some w =>
      rw [getMetaData_of_find _ _ _ w hf]
      cases hl : w.target.getAssetDatabase.records.lookup (name, type) with
      | none =>
        rw [getMeta_of_lookup_none _ _ _ hl]
        exact ⟨fun _ => Or.inr ⟨w, rfl, hl⟩, fun _ => rfl⟩
      | some record =>
        rw [getMeta_of_lookup_some _ _ _ _ hl]
        constructor
        · intro h
          cases h
        · rintro (h | ⟨w2, hw2, hl2⟩)
          · cases h
          · cases hw2
            rw [hl] at hl2
            cases hl2

theorem getMetaData_contract_witness :
    find (addAll [sampleDir, samplePack]).locators "sprite.png" = some ⟨1, samplePack⟩ ∧
    samplePack.getAssetDatabase.records.lookup ("sprite.png", AssetType.texture) =
      some { entries := [("source", "pack")] } ∧
    (addAll [sampleDir, samplePack]).getMetaData "sprite.png" AssetType.texture =
      .ok { entries := [("source", "pack")] } ∧
    find (addAll [sampleDir, samplePack]).locators "other.png" = none ∧
    (addAll [sampleDir, samplePack]).getMetaData "other.png" AssetType.texture =
      .error (assetNotFound "other.png") :=
  ⟨rfl, rfl,
    (getMetaData_contract (addAll [sampleDir, samplePack]) "sprite.png"
      AssetType.texture).2.1 ⟨1, samplePack⟩ _ rfl rfl,
    rfl,
    (getMetaData_contract (addAll [sampleDir, samplePack]) "other.png"
      AssetType.texture).1 rfl⟩

/-- C14: `getMetaData name type` has a defined error result in the inconsistent state: when
`name` has an indexed winner whose database holds no record under (name, type), the call
fails with the not-found error; it neither returns a record nor is left undefined. -/
theorem getMetaData_inconsistent_state (self : ResourceLocator) (name : String)
    (type : AssetType) (w : ProviderRef) (hw : find self.locators name = some w)
    (hmiss : ∀ record, ((name, type), record) ∉ w.target.getAssetDatabase.records) :
    self.getMetaData name type = .error (assetNotFound name) ∧
    (∀ record, self.getMetaData name type ≠ .ok record) := by
  have hl : w.target.getAssetDatabase.records.lookup (name, type) = none := by
    rw [List.lookup_eq_none_iff]
    intro p hp
    simp only [bne_iff_ne, ne_eq]
    intro hk
    exact hmiss p.2 (by rw [hk]; exact hp)
  have he : self.getMetaData name type = .error (assetNotFound name) := by
    rw [getMetaData_of_find _ _ _ w hw, getMeta_of_lookup_none _ _ _ hl]
  refine ⟨he, ?_⟩
  intro record h
  rw [he] at h
  cases h

theorem getMetaData_inconsistent_state_witness :
    find (addAll [sampleLow, sampleHigh]).locators "x" = some ⟨1, sampleHigh⟩ ∧
    (∀ record, (("x", AssetType.audio), record) ∉ sampleHigh.getAssetDatabase.records) ∧
    ((addAll [sampleLow, sampleHigh]).getMetaData "x" AssetType.audio =
      .error (assetNotFound "x") ∧
    (∀ record, (addAll [sampleLow, sampleHigh]).getMetaData "x" AssetType.audio ≠
      .ok record)) :=
  ⟨rfl, by simp [sampleHigh, typedProvider],
    getMetaData_inconsistent_state (addAll [sampleLow, sampleHigh]) "x" AssetType.audio
      ⟨1, sampleHigh⟩ rfl (by simp [sampleHigh, typedProvider])⟩

/-! ## Registration entry points -/

/-- C15: `addPack path key preLoad allowFailure`. When the system yields no data reader for
`path`: with `allowFailure` the call returns normally, emits one warning and registers
nothing; without it the call fails with the registration error ("Unable to load resource
pack"); in both cases the resolver state (index and provider list) is unchanged. When a data
reader is obtained, the call returns normally and exactly one provider, the pack provider built
from the reader, is added by `add`. -/
theorem addPack_contract (classes : ProviderClasses) (system : SystemAPI)
    (self : ResourceLocator) (path : String) (encryptionKey : String) (preLoad : Bool) :
    (system.getDataReader path = none →
      self.addPack classes system path encryptionKey preLoad true =
        (.ok (), self, [Effect.logWarning ("Resource pack not found: \"" ++ path ++ "\"")]) ∧
      self.addPack classes system path encryptionKey preLoad false =
        (.error (providerRegistrationFailed path), self, [])) ∧
    (∀ dataReader allowFailure, system.getDataReader path = some dataReader →
      self.addPack classes system path encryptionKey preLoad allowFailure =
        (.ok (),
          self.add (classes.PackResourceLocator dataReader path encryptionKey preLoad), []) ∧
      (self.addPack classes system path encryptionKey preLoad allowFailure).2.1.locatorList =
        self.locatorList ++
          [classes.PackResourceLocator dataReader path encryptionKey preLoad]) := by
  constructor
  · intro h
    unfold addPack
    rw [h]
    exact ⟨rfl, rfl⟩
  · intro dataReader allowFailure h
    unfold addPack
    rw [h]
    exact ⟨rfl, rfl⟩

theorem addPack_contract_witness :
    sampleSystem.getDataReader "missing.dat" = none ∧
    (new.addPack sampleClasses sampleSystem "missing.dat" "key" false true =
        (.ok (), new, [Effect.logWarning "Resource pack not found: \"missing.dat\""]) ∧
      new.addPack sampleClasses sampleSystem "missing.dat" "key" false false =
        (.error (providerRegistrationFailed "missing.dat"), new, [])) ∧
    sampleSystem.getDataReader "assets.dat" = some { bytes := [7] } ∧
    (new.addPack sampleClasses sampleSystem "assets.dat" "key" false false).2.1.locatorList =
      new.locatorList ++
        [sampleClasses.PackResourceLocator { bytes := [7] } "assets.dat" "key" false] :=
  ⟨rfl, (addPack_contract sampleClasses sampleSystem new "missing.dat" "key" false).1 rfl,
    rfl,
    ((addPack_contract sampleClasses sampleSystem new "assets.dat" "key" false).2
      { bytes := [7] } false rfl).2⟩

/-! ## Selection by name -/

theorem mem_getAssets_of_record (db : AssetDatabase) (name : String) (type : AssetType)
    (record : Metadata) (h : ((name, type), record) ∈ db.records) : name ∈ db.getAssets :=
  List.mem_map.2 ⟨((name, type), record), h, rfl⟩

theorem find_add_add_of_lt (L W : IResourceLocatorProvider) (name : String)
    (hprio : L.getPriority < W.getPriority)
    (hL : name ∈ L.getAssetDatabase.getAssets) (hW : name ∈ W.getAssetDatabase.getAssets) :
    find (addAll [L, W]).locators name = some ⟨1, W⟩ ∧
    find (addAll [W, L]).locators name = some ⟨0, W⟩ := by
  have hnot : ¬ W.getPriority < L.getPriority := not_lt.2 (le_of_lt hprio)
  constructor
  · show find ((new.add L).add W).locators name = _
    rw [find_add, find_add]
    simp [hL, hW, arbitrate, hprio, new, find, locatorList_add]
  · show find ((new.add W).add L).locators name = _
    rw [find_add, find_add]
    simp [hL, hW, arbitrate, hnot, new, find, locatorList_add]

/-- C18: provider selection is keyed on the name alone. In every resolver state where `name`
has the index entry `w`, whatever the types and stream flags, `getResource name T1 s1` and
`getResource name T2 s2` each make their one fetch on the winner's slot, `getMetaData name T1`
reads the winner's database, and `purge name T1` purges the winner's slot. In particular, when
a provider `W` lists `name` under `T1` and a lower-priority provider `L` lists it under `T2`,
then in either registration order `getResource name T2 s` makes its one fetch on `W`, returns
what `W` fetched, and makes no call on `L`. -/
theorem selection_keyed_on_name (name : String) (T1 T2 : AssetType) :
    (∀ (self : ResourceLocator) (w : ProviderRef) (s1 s2 : Bool),
      find self.locators name = some w →
      (self.getResource name T1 s1).2 = [Effect.getData w.slot name T1 s1] ∧
      (self.getResource name T2 s2).2 = [Effect.getData w.slot name T2 s2] ∧
      self.getMetaData name T1 = w.target.getAssetDatabase.getMeta T1 name ∧
      (self.purge name T1).2 = [Effect.purge w.slot]) ∧
    (∀ (W L : IResourceLocatorProvider) (m1 m2 : Metadata) (s : Bool),
      L.getPriority < W.getPriority →
      ((name, T1), m1) ∈ W.getAssetDatabase.records →
      ((name, T2), m2) ∈ L.getAssetDatabase.records →
      ((addAll [L, W]).locatorList[1]? = some W ∧
        (addAll [L, W]).getResource name T2 s =
          (fetched name (W.getData name T2 s), [Effect.getData 1 name T2 s])) ∧
      ((addAll [W, L]).locatorList[0]? = some W ∧
        (addAll [W, L]).getResource name T2 s =
          (fetched name (W.getData name T2 s), [Effect.getData 0 name T2 s]))) := by
  constructor
  · intro self w s1 s2 h
    refine ⟨?_, ?_, getMetaData_of_find _ _ _ w h, ?_⟩
    · rw [getResource_of_find _ _ _ _ w h]
    · rw [getResource_of_find _ _ _ _ w h]
    · unfold purge
      rw [h]
  · intro W L m1 m2 s hprio hW hL
    obtain ⟨e1, e2⟩ := find_add_add_of_lt L W name hprio
      (mem_getAssets_of_record _ _ _ _ hL) (mem_getAssets_of_record _ _ _ _ hW)
    refine ⟨⟨by rw [locatorList_addAll]; rfl, ?_⟩, ⟨by rw [locatorList_addAll]; rfl, ?_⟩⟩
    · exact getResource_of_find _ name T2 s _ e1
    · exact getResource_of_find _ name T2 s _ e2

theorem selection_keyed_on_name_witness :
    find (addAll [sampleLow, sampleHigh]).locators "x" = some ⟨1, sampleHigh⟩ ∧
    ((addAll [sampleLow, sampleHigh]).getResource "x" AssetType.texture false).2 =
      [Effect.getData 1 "x" AssetType.texture false] ∧
    (addAll [sampleLow, sampleHigh]).getResource "x" AssetType.audio true =
      (fetched "x" (sampleHigh.getData "x" AssetType.audio true),
        [Effect.getData 1 "x" AssetType.audio true]) ∧
    (addAll [sampleLow, sampleHigh]).getResource "x" AssetType.audio true =
      (.error (assetLoadFailed "x"), [Effect.getData 1 "x" AssetType.audio true]) ∧
    sampleLow.getData "x" AssetType.audio true = some (.static { bytes := [4] }) :=
  ⟨rfl,
    ((selection_keyed_on_name "x" AssetType.texture AssetType.audio).1
      (addAll [sampleLow, sampleHigh]) ⟨1, sampleHigh⟩ false true rfl).1,
    ((selection_keyed_on_name "x" AssetType.texture AssetType.audio).2 sampleHigh sampleLow
      { entries := [("source", "high")] } { entries := [("source", "low")] } true
      (by decide) (by decide) (by decide)).1.2,
    rfl, rfl⟩

/-! ## Reachable states -/

theorem purge_state (self : ResourceLocator) (name : String) (type : AssetType) :
    (self.purge name type).1 = self := by
  unfold purge
  cases find self.locators name <;> rfl

/-- A call either leaves the resolver state as it was or is one `add`. -/
theorem perform_state_cases (classes : ProviderClasses) (system : SystemAPI)
    (self : ResourceLocator) (request : Request) :
    (perform classes system self request).1 = self ∨
      ∃ locator, (perform classes system self request).1 = self.add locator := by
  cases request with
  | add locator => exact Or.inr ⟨locator, rfl⟩
  | addFileSystem path => exact Or.inr ⟨_, rfl⟩
  | addPack path encryptionKey preLoad allowFailure =>
    simp only [perform, addPack]
    cases system.getDataReader path with
    | some dataReader => exact Or.inr ⟨_, rfl⟩
    | none => cases allowFailure <;> exact Or.inl rfl
  | getResource asset type stream => exact Or.inl rfl
  | getStatic asset type => exact Or.inl rfl
  | getStream asset type => exact Or.inl rfl
  | purge asset type => exact Or.inl (purge_state self asset type)
  | enumerate type => exact Or.inl rfl
  | getMetaData asset type => exact Or.inl rfl
  | exists_ asset => exact Or.inl rfl

/-- Every reachable state is the result of a sequence of `add` calls on the empty resolver. -/
theorem reachable_eq_addAll (classes : ProviderClasses) (system : SystemAPI)
    (self : ResourceLocator) (h : Reachable classes system self) :
    ∃ ps, self = addAll ps := by
  induction h with
  | new => exact ⟨[], rfl⟩
  | step r request _ ih =>
    obtain ⟨ps, hps⟩ := ih
    rcases perform_state_cases classes system r request with h | ⟨locator, h⟩
    · exact ⟨ps, h.trans hps⟩
    · refine ⟨ps ++ [locator], ?_⟩
      rw [h, hps, addAll_append_singleton]

theorem find_add_isSome (self : ResourceLocator) (locator : IResourceLocatorProvider)
    (n : String) (h : (find self.locators n).isSome = true) :
    (find (self.add locator).locators n).isSome = true := by
  rw [find_add]
  cases hf : find self.locators n with
  | none =>
    rw [hf] at h
    cases h
  | some w =>
    by_cases hmem : n ∈ locator.getAssetDatabase.getAssets
    · by_cases hp : w.target.getPriority < locator.getPriority
      · simp [hmem, arbitrate, hp]
      · simp [hmem, arbitrate, hp]
    · simp [hmem]

/-- C19: every index entry refers to a registered provider. In every state reachable from the
empty resolver by `add`, `addFileSystem`, `addPack`, `purge` and the read operations, each
entry of the name index points to a slot of the provider list that holds the provider pointed
to; and no call removes a provider from the list (the list before is a leading part of the
list after) or an entry from the index (so `exists name` never goes from true to false). -/
theorem index_refers_to_list (classes : ProviderClasses) (system : SystemAPI) :
    (∀ self, Reachable classes system self → ∀ n w, find self.locators n = some w →
      self.locatorList[w.slot]? = some w.target ∧ w.target ∈ self.locatorList) ∧
    (∀ (self : ResourceLocator) (request : Request), ∃ rest,
      (perform classes system self request).1.locatorList = self.locatorList ++ rest) ∧
    (∀ (self : ResourceLocator) (request : Request) (n : String), self.exists_ n = true →
      (perform classes system self request).1.exists_ n = true) := by
  refine ⟨?_, ?_, ?_⟩
  · intro self hr n w hw
    obtain ⟨ps, hps⟩ := reachable_eq_addAll classes system self hr
    subst hps
    obtain ⟨h1, _, _, _⟩ := (addAll_index ps n).2 w hw
    rw [locatorList_addAll]
    exact ⟨h1, List.mem_iff_getElem?.2 ⟨_, h1⟩⟩
  · intro self request
    rcases perform_state_cases classes system self request with h | ⟨locator, h⟩
    · exact ⟨[], by rw [h]; simp⟩
    · exact ⟨[locator], by rw [h]; rfl⟩
  · intro self request n hn
    rcases perform_state_cases classes system self request with h | ⟨locator, h⟩
    · rw [h]
      exact hn
    · rw [h]
      exact find_add_isSome self locator n hn

theorem reachable_sampleSession3 : Reachable sampleClasses sampleSystem sampleSession3 :=
  Reachable.step sampleSession2 (.purge "dir" AssetType.texture)
    (Reachable.step sampleSession1 (.addPack "assets.dat" "key" false false)
      (Reachable.step new (.addFileSystem "dir") Reachable.new))

theorem index_refers_to_list_witness :
    Reachable sampleClasses sampleSystem sampleSession3 ∧
    find sampleSession3.locators "assets.dat" =
      some ⟨1, sampleClasses.PackResourceLocator { bytes := [7] } "assets.dat" "key" false⟩ ∧
    sampleSession3.locatorList[1]? =
      some (sampleClasses.PackResourceLocator { bytes := [7] } "assets.dat" "key" false) :=
  ⟨reachable_sampleSession3, rfl,
    ((index_refers_to_list sampleClasses sampleSystem).1 sampleSession3
      reachable_sampleSession3 "assets.dat"
      ⟨1, sampleClasses.PackResourceLocator { bytes := [7] } "assets.dat" "key" false⟩
      rfl).1⟩

end ResourceLocator

/-! ## Font tool: the search -/

theorem tdiv_two_bounds (v0 v1 : Int) (h : v0 ≤ v1) :
    v0 ≤ (v0 + v1).tdiv 2 ∧ (v0 + v1).tdiv 2 ≤ v1 := by
  by_cases hs : 0 ≤ v0 + v1
  · rw [Int.tdiv_eq_ediv hs (by decide)]
    omega
  · have hn : (v0 + v1).tdiv 2 = -((-(v0 + v1)) / 2) := by
      rw [← Int.tdiv_eq_ediv (by omega) (by decide), Int.neg_tdiv, neg_neg]
    rw [hn]
    omega

theorem binarySearchLoop_of_gt {R : Type} (f : Int → Option R) (v0 v1 lastGood : Int)
    (best : Option R) (probes : List Int) (h : ¬ v0 ≤ v1) :
    binarySearchLoop f v0 v1 lastGood best probes = some (lastGood, best, probes) := by
  rw [binarySearchLoop, if_neg h]

theorem binarySearchLoop_of_some {R : Type} (f : Int → Option R) (v0 v1 lastGood : Int)
    (best : Option R) (probes : List Int) (result : R) (h : v0 ≤ v1)
    (hs : INT_MIN ≤ v0 + v1 ∧ v0 + v1 ≤ INT_MAX)
    (hf : f ((v0 + v1).tdiv 2) = some result) (h1 : (v0 + v1).tdiv 2 + 1 ≤ INT_MAX) :
    binarySearchLoop f v0 v1 lastGood best probes =
      binarySearchLoop f ((v0 + v1).tdiv 2 + 1) v1 ((v0 + v1).tdiv 2) (some result)
        (probes ++ [(v0 + v1).tdiv 2]) := by
  rw [binarySearchLoop, if_pos h, if_pos hs]
  simp only [hf, if_pos h1]

theorem binarySearchLoop_of_none {R : Type} (f : Int → Option R) (v0 v1 lastGood : Int)
    (best : Option R) (probes : List Int) (h : v0 ≤ v1)
    (hs : INT_MIN ≤ v0 + v1 ∧ v0 + v1 ≤ INT_MAX)
    (hf : f ((v0 + v1).tdiv 2) = none) (h2 : INT_MIN ≤ (v0 + v1).tdiv 2 - 1) :
    binarySearchLoop f v0 v1 lastGood best probes =
      binarySearchLoop f v0 ((v0 + v1).tdiv 2 - 1) lastGood best
        (probes ++ [(v0 + v1).tdiv 2]) := by
  rw [binarySearchLoop, if_pos h, if_pos hs]
  simp only [hf, if_pos h2]

theorem binarySearchLoop_of_overflow {R : Type} (f : Int → Option R) (v0 v1 lastGood : Int)
    (best : Option R) (probes : List Int) (h : v0 ≤ v1)
    (hs : ¬ (INT_MIN ≤ v0 + v1 ∧ v0 + v1 ≤ INT_MAX)) :
    binarySearchLoop f v0 v1 lastGood best probes = none := by
  rw [binarySearchLoop, if_pos h, if_neg hs]

/-- The loop from a state whose bounds can be doubled without overflow: it exits with a
defined state, evaluates `f` only inside `[v0, v1]`, and for a downward-closed `f` it keeps
the entry values when `f` succeeds nowhere in `[v0, v1]` and otherwise ends on the largest
success. -/
theorem binarySearchLoop_spec {R : Type} (f : Int → Option R) :
    ∀ (n : Nat) (v0 v1 lastGood : Int) (best : Option R) (probes : List Int),
      (v1 - v0 + 1).toNat = n → INT_MIN ≤ 2 * v0 → 2 * v1 ≤ INT_MAX →
      ∃ lg b pr, binarySearchLoop f v0 v1 lastGood best probes = some (lg, b, probes ++ pr) ∧
        (∀ v ∈ pr, v0 ≤ v ∧ v ≤ v1) ∧
        ((∀ a c, v0 ≤ a → a ≤ c → c ≤ v1 → (f c).isSome = true → (f a).isSome = true) →
          ((∀ u, v0 ≤ u → u ≤ v1 → f u = none) → lg = lastGood ∧ b = best) ∧
          ((∃ u, v0 ≤ u ∧ u ≤ v1 ∧ (f u).isSome = true) →
            ∃ v, v0 ≤ v ∧ v ≤ v1 ∧ (f v).isSome = true ∧ b = f v ∧ lg = v ∧
              ∀ u, v < u → u ≤ v1 → f u = none)) := by
  intro n
  induction n using Nat.strong_induction_on with
  | _ n ih =>
    intro v0 v1 lastGood best probes hn hlo hhi
    by_cases h : v0 ≤ v1
    · obtain ⟨hb1, hb2⟩ := tdiv_two_bounds v0 v1 h
      have hs : INT_MIN ≤ v0 + v1 ∧ v0 + v1 ≤ INT_MAX := by
        unfold INT_MIN INT_MAX at *
        omega
      cases hf : f ((v0 + v1).tdiv 2) with
      | some result =>
        have h1 : (v0 + v1).tdiv 2 + 1 ≤ INT_MAX := by
          unfold INT_MIN INT_MAX at *
          omega
        rw [binarySearchLoop_of_some f v0 v1 lastGood best probes result h hs hf h1]
        generalize (v0 + v1).tdiv 2 = v at hb1 hb2 hf h1
        obtain ⟨lg, b, pr, he, hpr, hfun⟩ :=
          ih (v1 - (v + 1) + 1).toNat (by omega) (v + 1) v1 v (some result) (probes ++ [v]) rfl
            (by omega) hhi
        refine ⟨lg, b, v :: pr, by rw [he]; simp, ?_, ?_⟩
        · intro x hx
          rcases List.mem_cons.1 hx with hx | hx
          · subst hx
            exact ⟨hb1, hb2⟩
          · have := hpr x hx
            omega
        · intro hdc
          obtain ⟨hA, hB⟩ := hfun (fun a c h1 h2 h3 => hdc a c (by omega) h2 h3)
          have hsome : (f v).isSome = true := by rw [hf]; rfl
          constructor
          · intro hnone
            have := hnone v hb1 hb2
            rw [this] at hf
            cases hf
          · intro _
            by_cases hex : ∃ u, v + 1 ≤ u ∧ u ≤ v1 ∧ (f u).isSome = true
            · obtain ⟨w, w1, w2, w3, w4, w5, w6⟩ := hB hex
              exact ⟨w, by omega, w2, w3, w4, w5, w6⟩
            · have hnone : ∀ u, v + 1 ≤ u → u ≤ v1 → f u = none := by
                intro u hu1 hu2
                cases hfu : f u with
                | none => rfl
                | some r => exact absurd ⟨u, hu1, hu2, by rw [hfu]; rfl⟩ hex
              obtain ⟨e1, e2⟩ := hA hnone
              exact ⟨v, hb1, hb2, hsome, by rw [e2, hf], e1,
                fun u hu1 hu2 => hnone u (by omega) hu2⟩
      | none =>
        have h2 : INT_MIN ≤ (v0 + v1).tdiv 2 - 1 := by
          unfold INT_MIN INT_MAX at *
          omega
        rw [binarySearchLoop_of_none f v0 v1 lastGood best probes h hs hf h2]
        generalize (v0 + v1).tdiv 2 = v at hb1 hb2 hf h2
        obtain ⟨lg, b, pr, he, hpr, hfun⟩ :=
          ih (v - 1 - v0 + 1).toNat (by omega) v0 (v - 1) lastGood best (probes ++ [v]) rfl
            hlo (by omega)
        refine ⟨lg, b, v :: pr, by rw [he]; simp, ?_, ?_⟩
        · intro x hx
          rcases List.mem_cons.1 hx with hx | hx
          · subst hx
            exact ⟨hb1, hb2⟩
          · have := hpr x hx
            omega
        · intro hdc
          obtain ⟨hA, hB⟩ := hfun (fun a c h1 h2 h3 => hdc a c h1 h2 (by omega))
          have hupper : ∀ u, v ≤ u → u ≤ v1 → f u = none := by
            intro u hu1 hu2
            cases hfu : f u with
            | none => rfl
            | some r =>
              have := hdc v u hb1 hu1 hu2 (by rw [hfu]; rfl)
              rw [hf] at this
              cases this
          constructor
          · intro hnone
            exact hA (fun u hu1 hu2 => hnone u hu1 (by omega))
          · rintro ⟨u, hu1, hu2, hu3⟩
            have hlt : u ≤ v - 1 := by
              by_contra hge
              have := hupper u (by omega) hu2
              rw [this] at hu3
              cases hu3
            obtain ⟨w, w1, w2, w3, w4, w5, w6⟩ := hB ⟨u, hu1, hlt, hu3⟩
            refine ⟨w, w1, by omega, w3, w4, w5, ?_⟩
            intro x hx1 hx2
            by_cases hxv : x ≤ v - 1
            · exact w6 x hx1 hxv
            · exact hupper x (by omega) hx2
    · rw [binarySearchLoop_of_gt f v0 v1 lastGood best probes h]
      refine ⟨lastGood, best, [], by simp, by simp, ?_⟩
      intro _
      refine ⟨fun _ => ⟨rfl, rfl⟩, ?_⟩
      rintro ⟨u, hu1, hu2, _⟩
      exact absurd (le_trans hu1 hu2) h

theorem binarySearch_of_loop_none {R : Type} (f : Int → Option R) (minBound maxBound : Int)
    (h : binarySearchLoop f minBound maxBound minBound none [] = none) :
    binarySearch f minBound maxBound = none := by
  unfold binarySearch
  rw [h]

theorem binarySearch_of_loop_some {R : Type} (f : Int → Option R) (minBound maxBound : Int)
    (lastGood : Int) (best : Option R) (probes : List Int)
    (h : binarySearchLoop f minBound maxBound minBound none [] =
      some (lastGood, best, probes)) :
    binarySearch f minBound maxBound =
      some
        { bestResult := best
          lastGood := lastGood
          probes := probes
          printed := if lastGood > 0 then some lastGood else none } := by
  unfold binarySearch
  rw [h]

/-- C20, as stated, fails: the bounds 0 and `INT_MAX` have a sum that does not overflow and
`f` succeeds everywhere (so it is downward-closed), yet after the first midpoint
1073741823 succeeds the next sum `1073741824 + 2147483647` overflows: the run has no defined
result instead of returning the result of `f` at `INT_MAX`. -/
theorem binarySearch_overflow_counterexample :
    (INT_MIN ≤ 0 + INT_MAX ∧ 0 + INT_MAX ≤ INT_MAX) ∧
    (∀ a c : Int, 0 ≤ a → a ≤ c → c ≤ INT_MAX →
      ((fun _ => some ()) c : Option Unit).isSome = true →
      ((fun _ => some ()) a : Option Unit).isSome = true) ∧
    binarySearch (fun _ => some ()) 0 INT_MAX = none := by
  refine ⟨by decide, fun _ _ _ _ _ _ => rfl, ?_⟩
  apply binarySearch_of_loop_none
  rw [binarySearchLoop_of_some (fun _ => some ()) 0 INT_MAX 0 none [] () (by decide)
    (by decide) rfl (by decide)]
  exact binarySearchLoop_of_overflow _ _ _ _ _ _ (by decide) (by decide)

/-- C20, amended: for `int` bounds with either `minBound > maxBound` or both `2 * minBound`
and `2 * maxBound` in the range of `int`, `binarySearch f minBound maxBound` terminates with a
defined result and evaluates `f` only at values inside `[minBound, maxBound]`; if moreover `f`
is downward-closed on that range, it returns the result of `f` at the largest value of the
range at which `f` succeeds, and it returns an empty result if and only if `f` succeeds at no
value of the range (in particular when `minBound > maxBound`). -/
theorem binarySearch_spec {R : Type} (f : Int → Option R) (minBound maxBound : Int)
    (hbounds : maxBound < minBound ∨ (INT_MIN ≤ 2 * minBound ∧ 2 * maxBound ≤ INT_MAX)) :
    ∃ run, binarySearch f minBound maxBound = some run ∧
      (∀ v ∈ run.probes, minBound ≤ v ∧ v ≤ maxBound) ∧
      ((∀ a c, minBound ≤ a → a ≤ c → c ≤ maxBound → (f c).isSome = true →
          (f a).isSome = true) →
        (∀ v, minBound ≤ v → v ≤ maxBound → (f v).isSome = true →
          (∀ u, v < u → u ≤ maxBound → f u = none) → run.bestResult = f v) ∧
        (run.bestResult = none ↔ ∀ v, minBound ≤ v → v ≤ maxBound → f v = none)) := by
  rcases hbounds with hlt | ⟨hlo, hhi⟩
  · have he := binarySearchLoop_of_gt f minBound maxBound minBound none [] (not_le.2 hlt)
    refine ⟨{ bestResult := none, lastGood := minBound, probes := [],
              printed := if minBound > 0 then some minBound else none }, ?_, ?_, ?_⟩
    · exact binarySearch_of_loop_some f minBound maxBound _ _ _ he
    · intro v hv
      cases hv
    · intro _
      constructor
      · intro v h1 h2
        omega
      · constructor
        · intro _ v h1 h2
          omega
        · intro _
          rfl
  · obtain ⟨lg, b, pr, he, hpr, hfun⟩ :=
      binarySearchLoop_spec f _ minBound maxBound minBound none [] rfl hlo hhi
    refine ⟨{ bestResult := b, lastGood := lg, probes := [] ++ pr,
              printed := if lg > 0 then some lg else none }, ?_, ?_, ?_⟩
    · exact binarySearch_of_loop_some f minBound maxBound _ _ _ he
    · intro v hv
      exact hpr v (by simpa using hv)
    · intro hdc
      obtain ⟨hA, hB⟩ := hfun hdc
      constructor
      · intro v h1 h2 h3 h4
        obtain ⟨w, w1, w2, w3, w4, _, w6⟩ := hB ⟨v, h1, h2, h3⟩
        have hwv : w = v := by
          rcases lt_trichotomy w v with hlt | heq | hgt
          · have := w6 v hlt h2
            rw [this] at h3
            cases h3
          · exact heq
          · have := h4 w hgt w2
            rw [this] at w3
            cases w3
        show b = f v
        rw [w4, hwv]
      · show b = none ↔ _
        constructor
        · intro hb v h1 h2
          cases hfv : f v with
          | none => rfl
          | some r =>
            obtain ⟨w, _, _, w3, w4, _, _⟩ := hB ⟨v, h1, h2, by rw [hfv]; rfl⟩
            rw [← w4, hb] at w3
            cases w3
        · intro hnone
          exact (hA hnone).2

theorem binarySearch_spec_witness :
    ((200 : Int) < 0 ∨ (INT_MIN ≤ 2 * 0 ∧ 2 * 200 ≤ INT_MAX)) ∧
    (∀ a c : Int, 0 ≤ a → a ≤ c → c ≤ 200 → (sampleFits c).isSome = true →
      (sampleFits a).isSome = true) ∧
    ∃ run, binarySearch sampleFits 0 200 = some run ∧
      (∀ v ∈ run.probes, (0 : Int) ≤ v ∧ v ≤ 200) ∧ run.bestResult = some 370 :=
  have hdc : ∀ a c : Int, 0 ≤ a → a ≤ c → c ≤ 200 → (sampleFits c).isSome = true →
      (sampleFits a).isSome = true := by
    intro a c _ hac _ hc
    unfold sampleFits at *
    by_cases h : c ≤ 37
    · have ha : a ≤ 37 := le_trans hac h
      simp [ha]
    · simp [h] at hc
  have hnone : ∀ u : Int, 37 < u → u ≤ 200 → sampleFits u = none := by
    intro u hu _
    unfold sampleFits
    simp [not_le.2 hu]
  ⟨Or.inr ⟨by decide, by decide⟩, hdc,
    match binarySearch_spec sampleFits 0 200 (Or.inr ⟨by decide, by decide⟩) with
    | ⟨run, h1, h2, h3⟩ =>
      ⟨run, h1, h2, (h3 hdc).1 37 (by decide) (by decide) rfl hnone⟩⟩

end Halley
